import Mathlib

/-!
# MazeRobot.c — a shallow embedding of the maze-mapping controller

The C program keeps all of its state in globals (`compass`, `maze`, `x`, `y`,
`lines`, `nestingAreas`) and in two function-local statics (the `state`
variables of `detectLine` and `readNode`).  Here the globals and statics are
the fields of one record `State`; every C function is a function on `State`.

* Sensor reads (`FA_ReadIR`, `FA_ReadLine`, `FA_ReadLight`) are inputs of the
  function that performs them.
* Actuator, display and telemetry calls are appended, in program order, to the
  field `out`.
* `int` is modelled by `Int` (no wrap-around: the counters and coordinates
  only ever move by one per grid-line crossing).
* `maze[x][y]` with `x` or `y` outside `0..4` is undefined behaviour in C; the
  functions that perform such an access return `none` there.
-/

namespace MazeRobot

/-! ## Data model -/

/-! The enumerators of `Compass` (`typedef enum Navigation`), by their integer
values. -/

def north : Nat := 0
def east : Nat := 1
def south : Nat := 2
def west : Nat := 3

/-- The `struct mazeNode` record (`node`). -/
structure node where
  north : Int
  east : Int
  south : Int
  west : Int
  visited : Bool
  nestingArea : Bool
deriving DecidableEq, Repr

/-- The array `node maze[5][5]`. -/
abbrev Maze := Fin 5 → Fin 5 → node

/-- Calls into the robot API that act on the outside world. -/
inductive Cmd where
  | SetMotors (l r : Int)
  | Left (deg : Int)
  | Right (deg : Int)
  | Forwards (mm : Int)
  | Backwards (mm : Int)
  | DelayMillis (ms : Int)
  | LEDOn (i : Int)
  | LEDOff (i : Int)
  | BTSendString (s : String) (len : Int)
  | BTSendNumber (n : Int)
  | BTSendByte (c : Char)
  | LCDRectangle (x1 y1 x2 y2 colour style : Int)
  | LCDSetForegroundWhite
  | LCDLine (x1 y1 x2 y2 : Int)
  | LCDBacklight (n : Int)
  | LCDClear
  | LCDPrint (s : String) (len x y : Int)
  | RobotInit
deriving DecidableEq, Repr

/-- One sample of each infrared channel. -/
structure IRFrame where
  front : Int
  left : Int
  right : Int
  rear : Int
  frontLeft : Int
  frontRight : Int
deriving DecidableEq, Repr

/-- The globals of the program together with the two function-local statics. -/
structure State where
  /-- The global `compass`, by the integer value of the enumerator. -/
  compass : Nat
  maze : Maze
  x : Int
  y : Int
  lines : Int
  nestingAreas : Int
  /-- The static `state` of `detectLine`. -/
  lineState : Int
  /-- The static `state` of `readNode`. -/
  scanState : Int
  /-- The actuator / display / telemetry calls made so far. -/
  out : List Cmd

/-- Append commands to the output of a state. -/
def emit (s : State) (cs : List Cmd) : State :=
  { s with out := s.out ++ cs }

/-! ## `detectWall` (lines 46-67) -/

def detectWall (s : State) (ir : IRFrame) : State :=
  if ir.left < 100 then
    emit { s with compass := (s.compass + 3) % 4 } [Cmd.Left 93, Cmd.DelayMillis 50]
  else if ir.front < 100 then
    emit s [Cmd.DelayMillis 50]
  else if ir.right < 100 then
    emit { s with compass := (s.compass + 1) % 4 } [Cmd.Right 93, Cmd.DelayMillis 50]
  else
    emit { s with compass := (s.compass + 2) % 4 } [Cmd.Right 192, Cmd.DelayMillis 50]

/-! ## `avoidWalls` (lines 73-86) -/

def avoidWalls (s : State) (ir : IRFrame) : State :=
  if ir.frontLeft > 200 then
    emit s [Cmd.Right 5]
  else if ir.frontRight > 200 then
    emit s [Cmd.Left 5]
  else if ir.front > 300 then
    emit s [Cmd.Backwards 10]
  else
    s

/-! ## `currentPosition` (lines 92-107) -/

def currentPosition (s : State) : State :=
  match s.compass with
  | 0 => { s with x := s.x + 1 }
  | 1 => { s with y := s.y - 1 }
  | 2 => { s with x := s.x - 1 }
  | 3 => { s with y := s.y + 1 }
  | _ => s

/-! ## `detectLine` (lines 115-139) -/

/-- The result is the returned `int` and the state after the call.  `l0` and
`l1` are the values of `FA_ReadLine(0)` and `FA_ReadLine(1)`. -/
def detectLine (s : State) (l0 l1 : Int) : Int × State :=
  let avgLine := (l0 + l1).tdiv 2
  if s.lineState = 0 then
    if avgLine > 150 then (0, { s with lineState := 1 }) else (0, s)
  else if s.lineState = 1 then
    if avgLine < 10 then (0, { s with lineState := 2 }) else (0, s)
  else if s.lineState = 2 then
    if avgLine > 150 then
      (1, emit (currentPosition { s with lineState := 0 }) [Cmd.Forwards 100])
    else (0, s)
  else (0, s)

/-! ## Access to `maze[x][y]` -/

/-- The index pair of `maze[x][y]`, or `none` when `x` or `y` is outside
`0..4` (the access is then outside the array). -/
def cellIndex (x y : Int) : Option (Fin 5 × Fin 5) :=
  if h : 0 ≤ x ∧ x < 5 ∧ 0 ≤ y ∧ y < 5 then
    some (⟨x.toNat, by omega⟩, ⟨y.toNat, by omega⟩)
  else none

/-- The array with the element at `[i][j]` replaced. -/
def setCell (m : Maze) (i j : Fin 5) (n : node) : Maze :=
  fun a b => if a = i ∧ b = j then n else m a b

/-! ## `printNode` (lines 145-173) -/

def printNode (s : State) : Option State :=
  match cellIndex s.x s.y with
  | none => none
  | some (i, j) =>
    some (emit s
      [Cmd.BTSendString "Lines counted: " 15, Cmd.BTSendNumber s.lines, Cmd.BTSendByte '\n',
       Cmd.BTSendString "Compass: " 11, Cmd.BTSendNumber s.compass, Cmd.BTSendByte '\n',
       Cmd.BTSendString "Array Positions (x,y): " 23, Cmd.BTSendNumber s.x,
       Cmd.BTSendString "," 1, Cmd.BTSendNumber s.y, Cmd.BTSendByte '\n',
       Cmd.BTSendString "North: " 7, Cmd.BTSendNumber (s.maze i j).north, Cmd.BTSendByte '\n',
       Cmd.BTSendString "East: " 6, Cmd.BTSendNumber (s.maze i j).east, Cmd.BTSendByte '\n',
       Cmd.BTSendString "South: " 7, Cmd.BTSendNumber (s.maze i j).south, Cmd.BTSendByte '\n',
       Cmd.BTSendString "West: " 6, Cmd.BTSendNumber (s.maze i j).west, Cmd.BTSendByte '\n',
       Cmd.BTSendString "Nesting area: " 14,
       Cmd.BTSendNumber (if (s.maze i j).nestingArea then 1 else 0), Cmd.BTSendByte '\n'])

/-! ## `checkNestingArea` (lines 181-196) -/

/-- The indicator sequence: `FA_LEDOn(i)` for `i = 0..7`, a one second delay,
then `FA_LEDOff(i)` for `i = 8` down to `0`. -/
def ledFlash : List Cmd :=
  (List.range 8).map (fun i => Cmd.LEDOn i) ++ [Cmd.DelayMillis 1000] ++
    (List.range 9).reverse.map (fun i => Cmd.LEDOff i)

/-- The argument `light` is the value of `FA_ReadLight()`.  Because of the
short-circuit `&&`, `maze[x][y]` is read only when `light < 450`. -/
def checkNestingArea (s : State) (light : Int) : Option State :=
  if light < 450 then
    match cellIndex s.x s.y with
    | none => none
    | some (i, j) =>
      if (s.maze i j).nestingArea = false then
        some (emit { s with nestingAreas := s.nestingAreas + 1
                            maze := setCell s.maze i j { s.maze i j with nestingArea := true } }
              ledFlash)
      else some s
  else some s

/-! ## `readNode` (lines 205-263) -/

/-- One pass through the body of the `while (i < 4)` loop: `st` is the static
`state`, `direction` the local array, `ir` the four readings taken at the top
of the body. -/
def readNodeStep (compassDir : Nat) (st : Int) (direction : List Int) (ir : IRFrame) :
    Int × List Int :=
  if st = 0 then
    (1, if ir.front < 100 then direction.set (compassDir % 4) 0
        else direction.set (compassDir % 4) 1)
  else if st = 1 then
    (2, if ir.right < 100 then direction.set ((compassDir + 1) % 4) 0
        else direction.set ((compassDir + 1) % 4) 1)
  else if st = 2 then
    (3, if ir.rear < 100 then direction.set ((compassDir + 2) % 4) 0
        else direction.set ((compassDir + 2) % 4) 1)
  else if st = 3 then
    (0, if ir.left < 100 then direction.set ((compassDir + 3) % 4) 0
        else direction.set ((compassDir + 3) % 4) 1)
  else (st, direction)

/-- The loop `while (i < 4) { ...; i++; }`: `n` passes remain, `scan i` is the
set of readings taken in pass `i`. -/
def readNodeLoop (compassDir : Nat) (scan : Nat → IRFrame) :
    Nat → Nat → Int → List Int → Int × List Int
  | 0, _, st, direction => (st, direction)
  | n + 1, i, st, direction =>
    let r := readNodeStep compassDir st direction (scan i)
    readNodeLoop compassDir scan n (i + 1) r.1 r.2

/-- The readings `scan 0 .. scan 3` are those of the four loop passes and
`light` is the value `checkNestingArea` reads. -/
def readNode (s : State) (scan : Nat → IRFrame) (light : Int) : Option State :=
  let compassDir := 0 + s.compass
  let r := readNodeLoop compassDir scan 4 0 s.scanState [north, east, south, west]
  let direction := r.2
  match cellIndex s.x s.y with
  | none => none
  | some (i, j) =>
    match direction[compassDir]?, direction[(compassDir + 1) % 4]?,
          direction[(compassDir + 2) % 4]?, direction[(compassDir + 3) % 4]? with
    | some n, some e, some so, some w =>
      checkNestingArea
        { emit s [Cmd.DelayMillis 350] with
            scanState := r.1
            maze := setCell s.maze i j
              { north := n, east := e, south := so, west := w
                visited := true, nestingArea := false } }
        light
    | _, _, _, _ => none

/-! ## `markAllNodesUnvisited` and `checkAllNodesVisited` (lines 269-300) -/

/-- The values `0, 1, 2, 3, 4` a loop counter takes under `while (k < 5)`. -/
def idx5 : List (Fin 5) := [0, 1, 2, 3, 4]

/-- Inner loop of `markAllNodesUnvisited` on row `i`. -/
def markRow (i : Fin 5) : List (Fin 5) → Maze → Maze
  | [], m => m
  | j :: js, m => markRow i js (setCell m i j { m i j with visited := false })

/-- Outer loop of `markAllNodesUnvisited`. -/
def markRows : List (Fin 5) → Maze → Maze
  | [], m => m
  | i :: is, m => markRows is (markRow i idx5 m)

def markAllNodesUnvisited (s : State) : State :=
  { s with maze := markRows idx5 s.maze }

/-- Inner loop of `checkAllNodesVisited` on row `i`: `false` when the
function returns `false` from inside the loop, `true` when the loop runs to
`j = 5`. -/
def checkRow (m : Maze) (i : Fin 5) : List (Fin 5) → Bool
  | [] => true
  | j :: js => if (m i j).visited = false then false else checkRow m i js

/-- Outer loop of `checkAllNodesVisited`. -/
def checkRows (m : Maze) : List (Fin 5) → Bool
  | [] => true
  | i :: is => if checkRow m i idx5 = false then false else checkRows m is

/-- The result is the returned `bool` and the state after the call. -/
def checkAllNodesVisited (s : State) : Bool × State :=
  (checkRows s.maze idx5, s)

/-! ## `printStartTable` and `printFinalTable` (lines 305-353) -/

/-- Inner `for (y ...)` loop of `printStartTable`; the result is the list of
calls made. -/
def startRow (y_line : Int) : List (Fin 5) → Int → List Cmd
  | [], _ => []
  | _ :: ys, x_line =>
    Cmd.LCDRectangle x_line y_line (x_line + 6) (y_line + 6) 1 0 ::
      startRow y_line ys (x_line + 6)

/-- Outer `for (x ...)` loop of `printStartTable`. -/
def startRows : List (Fin 5) → Int → List Cmd
  | [], _ => []
  | _ :: xs, y_line => startRow y_line idx5 0 ++ startRows xs (y_line + 6)

def printStartTable (s : State) : State :=
  emit s (startRows idx5 0)

/-- The calls made by the body of the inner loop of `printFinalTable` for the
cell `c` drawn at `(x_line, y_line)`. -/
def finalCell (c : node) (x_line y_line : Int) : List Cmd :=
  [Cmd.LCDSetForegroundWhite] ++
  (if c.south = 0 then [Cmd.LCDLine x_line y_line x_line (y_line + 6)] else []) ++
  (if c.west = 0 then [Cmd.LCDLine x_line y_line (x_line + 6) y_line] else []) ++
  (if c.north = 0 then [Cmd.LCDLine (x_line + 6) y_line (x_line + 6) (y_line + 6)] else []) ++
  (if c.east = 0 then [Cmd.LCDLine x_line (y_line + 6) (x_line + 6) (y_line + 6)] else [])

/-- Inner `for (y ...)` loop of `printFinalTable` on row `x`. -/
def finalRow (m : Maze) (x : Fin 5) (y_line : Int) : List (Fin 5) → Int → List Cmd
  | [], _ => []
  | y :: ys, x_line => finalCell (m x y) x_line y_line ++ finalRow m x y_line ys (x_line + 6)

/-- Outer `for (x ...)` loop of `printFinalTable`. -/
def finalRows (m : Maze) : List (Fin 5) → Int → List Cmd
  | [], _ => []
  | x :: xs, y_line => finalRow m x y_line idx5 0 ++ finalRows m xs (y_line + 6)

def printFinalTable (s : State) : State :=
  emit s (finalRows s.maze idx5 0)

/-! ## `main` (lines 355-392) -/

/-- The sensor values one pass of the `while (1)` loop may read: the two line
channels for `detectLine`; and, used only when a crossing is reported, the
readings of the four passes of `readNode`, the light value and the readings of
`detectWall`; the readings of `avoidWalls`. -/
structure TickInput where
  line0 : Int
  line1 : Int
  scan : Nat → IRFrame
  light : Int
  wall : IRFrame
  avoid : IRFrame

/-- The values of the globals and statics when `main` starts. -/
def initState : State :=
  { compass := 0
    maze := fun _ _ =>
      { north := 0, east := 0, south := 0, west := 0, visited := false, nestingArea := false }
    x := 2
    y := 0
    lines := 0
    nestingAreas := 0
    lineState := 0
    scanState := 0
    out := [] }

/-- The part of `main` before the `while (1)` loop, once the telemetry link
is connected. -/
def startup : State :=
  let s := emit initState
    [Cmd.RobotInit, Cmd.LCDBacklight 50, Cmd.LCDPrint "connecting..." 13 10 2, Cmd.LCDClear,
     Cmd.LCDPrint "connected!" 11 10 2, Cmd.BTSendString "connected!\n" 11,
     Cmd.DelayMillis 1000, Cmd.LCDClear]
  printStartTable (markAllNodesUnvisited { s with compass := north })

/-- The body of `if (detectLine() == 1) { ... }` after the call of
`detectLine`. -/
def onCrossing (s : State) (inp : TickInput) : Option State :=
  match readNode { s with lines := s.lines + 1 } inp.scan inp.light with
  | none => none
  | some s1 =>
    match printNode s1 with
    | none => none
    | some s2 => some (detectWall s2 inp.wall)

/-- The end of a pass of the `while (1)` loop: `avoidWalls()` and the
completion check.  The boolean is `true` when the pass ends in `return 0`. -/
def endOfPass (s : State) (inp : TickInput) : Bool × State :=
  let c := checkAllNodesVisited (avoidWalls s inp.avoid)
  if c.1 = true then
    (true, emit (printFinalTable (emit c.2 [Cmd.SetMotors 0 0])) [Cmd.DelayMillis 10000])
  else (false, c.2)

/-- One pass of the `while (1)` loop.  The boolean is `true` when the pass
ends in `return 0` (all cells visited); `none` marks an access outside
`maze`. -/
def tick (s : State) (inp : TickInput) : Option (Bool × State) :=
  let d := detectLine (emit s [Cmd.SetMotors 30 25]) inp.line0 inp.line1
  match (if d.1 = 1 then onCrossing d.2 inp else some d.2) with
  | none => none
  | some s1 => some (endOfPass s1 inp)

/-- The two phases of the control loop. -/
inductive Phase where
  | Exploring
  | Done
deriving DecidableEq, Repr

/-- The `while (1)` loop run on the successive inputs `inputs`: it stops at
the first pass that returns, and is still exploring when the inputs run
out. -/
def mainLoop : State → List TickInput → Option (Phase × State)
  | s, [] => some (Phase.Exploring, s)
  | s, inp :: rest =>
    match tick s inp with
    | none => none
    | some (true, s1) => some (Phase.Done, s1)
    | some (false, s1) => mainLoop s1 rest

/-- The program from its start, given the inputs of the loop passes. -/
def main (inputs : List TickInput) : Option (Phase × State) :=
  mainLoop startup inputs

/-! ## Notions used in the statements -/

/-- The value `readNode` stores for a reading: `0` below 100, else `1`. -/
def wallClass (ir : Int) : Int := if ir < 100 then 0 else 1

/-- The wall field of a cell for the absolute direction `d`
(`0` north, `1` east, `2` south, `3` west). -/
def wallAt (c : node) (d : Nat) : Int :=
  match d with
  | 0 => c.north
  | 1 => c.east
  | 2 => c.south
  | _ => c.west

/-- The averaged line reading `(FA_ReadLine(0) + FA_ReadLine(1)) / 2`. -/
def avgLine (p : Int × Int) : Int := (p.1 + p.2).tdiv 2

/-- Successive calls of `detectLine`, one per pair of line readings; the
result lists the returned values in order. -/
def detectLineRun : State → List (Int × Int) → List Int × State
  | s, [] => ([], s)
  | s, p :: ps =>
    let d := detectLine s p.1 p.2
    let r := detectLineRun d.2 ps
    (d.1 :: r.1, r.2)

/-- The start state with the detector Cleared and the heading West. -/
def clearedWest : State := { startup with compass := 3, lineState := 2 }

/-- Readings with front and rear below 100, left and right above. -/
def scanFrontRearLow : Nat → IRFrame := fun _ =>
  { front := 50, left := 150, right := 150, rear := 50, frontLeft := 0, frontRight := 0 }

/-- The four cells around which the robot circles when it turns left at every
crossing from the start cell. -/
def loopCells : List (Fin 5 × Fin 5) := [(2, 0), (3, 0), (3, 1), (2, 1)]

/-- Position and heading on the left-turn circuit from the start. -/
def onLeftLoop (s : State) : Prop :=
  (s.x = 2 ∧ s.y = 0 ∧ s.compass = 0) ∨ (s.x = 3 ∧ s.y = 0 ∧ s.compass = 3) ∨
  (s.x = 3 ∧ s.y = 1 ∧ s.compass = 2) ∨ (s.x = 2 ∧ s.y = 1 ∧ s.compass = 1)

/-- Position and heading when the robot reverses at every crossing from the
start. -/
def onBackLoop (s : State) : Prop :=
  (s.x = 2 ∧ s.y = 0 ∧ s.compass = 0) ∨ (s.x = 3 ∧ s.y = 0 ∧ s.compass = 2)

/-- No cell outside `loopCells` is marked visited. -/
def visitedOnlyLoop (s : State) : Prop :=
  ∀ i j : Fin 5, (s.maze i j).visited = true → (i, j) ∈ loopCells

/-- The two cells between which the robot moves when it reverses at every
crossing from the start cell. -/
def backCells : List (Fin 5 × Fin 5) := [(2, 0), (3, 0)]

/-- No cell outside `backCells` is marked visited. -/
def visitedOnlyBack (s : State) : Prop :=
  ∀ i j : Fin 5, (s.maze i j).visited = true → (i, j) ∈ backCells

/-- A pass input: both line channels read `l`, every infrared read of the
pass gives the frame `ir`, the light sensor reads `light`. -/
def mkInput (l light : Int) (ir : IRFrame) : TickInput :=
  { line0 := l, line1 := l, scan := fun _ => ir, light := light, wall := ir, avoid := ir }

/-- Three passes with line readings high, low, high. -/
def crossingTicks (light : Int) (ir : IRFrame) : List TickInput :=
  [mkInput 200 light ir, mkInput 0 light ir, mkInput 200 light ir]

/-- Every infrared channel reads 0: every direction is clear. -/
def irAllClear : IRFrame :=
  { front := 0, left := 0, right := 0, rear := 0, frontLeft := 0, frontRight := 0 }

/-- An environment in which every infrared reading is 0 at every pass and the
line readings repeat high, low, high, so that every third pass crosses a
line. -/
def openEnv (t : Nat) : TickInput :=
  mkInput (if t % 3 = 1 then 0 else 200) 1000 irAllClear

/-- The heading points out of the grid from the current cell. -/
def facingOut (s : State) : Bool :=
  decide ((s.compass = 0 ∧ s.x = 4) ∨ (s.compass = 1 ∧ s.y = 0) ∨
          (s.compass = 2 ∧ s.x = 0) ∨ (s.compass = 3 ∧ s.y = 4))

/-- Along the run of the loop from `s` on `inputs`, no pass reports a
crossing while the heading points out of the grid. -/
def staysInside : State → List TickInput → Bool
  | _, [] => true
  | s, inp :: rest =>
    !(decide ((detectLine s inp.line0 inp.line1).1 = 1) && facingOut s) &&
      (match tick s inp with
       | some (false, s1) => staysInside s1 rest
       | _ => true)

/-- Only the front is clear. -/
def irFrontClear : IRFrame :=
  { front := 0, left := 200, right := 200, rear := 200, frontLeft := 0, frontRight := 0 }

/-- Nothing is clear. -/
def irNoneClear : IRFrame :=
  { front := 200, left := 200, right := 200, rear := 200, frontLeft := 0, frontRight := 0 }

/-- Three crossings straight ahead from the start. -/
def straightRun : List TickInput :=
  crossingTicks 500 irFrontClear ++ crossingTicks 500 irFrontClear ++
    crossingTicks 500 irFrontClear

/-- Three crossings with a reversal at each: into (3,0) with light 100, back
into (2,0) with light 500, into (3,0) again with light 500. -/
def revisitBright : List TickInput :=
  crossingTicks 100 irNoneClear ++ crossingTicks 500 irNoneClear ++
    crossingTicks 500 irNoneClear

/-- Three crossings with a reversal at each, where only the cell (3,0) is
dark: into (3,0) with light 100, back into (2,0) with light 900, into (3,0)
again with light 100. -/
def revisitDark : List TickInput :=
  crossingTicks 100 irNoneClear ++ crossingTicks 900 irNoneClear ++
    crossingTicks 100 irNoneClear

/-- The number of cells whose `nestingArea` flag is true. -/
def nestingCount (m : Maze) : Nat :=
  (idx5.map (fun i => (idx5.filter (fun j => (m i j).nestingArea)).length)).sum

/-- The start state with the flag of the start cell (2,0) set. -/
def flaggedStart : State :=
  { startup with maze := setCell startup.maze 2 0 { startup.maze 2 0 with nestingArea := true } }

/-- The compass update of the specification: `rotate(c, k) = (c + k) mod 4`. -/
def rotate (c k : Nat) : Nat := (c + k) % 4

/-- The loop pass of `readNode` in which the reading `k` (`0` front, `1`
right, `2` rear, `3` left) is used, when the cursor starts at `c0`. -/
def passOf (c0 k : Int) : Nat := ((k - c0) % 4).toNat

/-- The values of the static `state` of `readNode` at the start of the
successive passes of its loop (same arguments as `readNodeLoop`). -/
def scanCursors (compassDir : Nat) (scan : Nat → IRFrame) :
    Nat → Nat → Int → List Int → List Int
  | 0, _, _, _ => []
  | n + 1, i, st, direction =>
    st :: scanCursors compassDir scan n (i + 1)
      (readNodeStep compassDir st direction (scan i)).1
      (readNodeStep compassDir st direction (scan i)).2

/-- Only the right is clear. -/
def irRightClear : IRFrame :=
  { front := 200, left := 200, right := 0, rear := 200, frontLeft := 0, frontRight := 0 }

/-- The readings at 26 successive crossings of a tour of the whole grid from
the start: (3,0), (4,0), (4,1), (3,1), (2,1), (1,1), (0,1), (0,0), (1,0),
(2,0), (2,1), (2,2), (3,2), (4,2), (4,3), (4,4), (3,4), (2,4), (1,4), (0,4),
(0,3), (0,2), (1,2), (1,3), (2,3), (3,3). -/
def tourFrames : List IRFrame :=
  [irFrontClear, irAllClear, irAllClear, irFrontClear, irFrontClear, irFrontClear, irAllClear,
   irAllClear, irFrontClear, irAllClear, irFrontClear, irRightClear, irFrontClear, irAllClear,
   irFrontClear, irAllClear, irFrontClear, irFrontClear, irFrontClear, irAllClear, irFrontClear,
   irAllClear, irAllClear, irRightClear, irFrontClear, irFrontClear]

/-- The 78 passes of the tour: three passes per crossing. -/
def tour : List TickInput := tourFrames.flatMap (fun ir => crossingTicks 500 ir)

/-- Successive passes of the loop body, whatever the completion check
returns. -/
def runTicks : State → List TickInput → Option State
  | s, [] => some s
  | s, inp :: rest =>
    match tick s inp with
    | none => none
    | some (_, s1) => runTicks s1 rest

/-- The state after the tour. -/
def tourEnd : State := (runTicks startup tour).getD startup

/-- The state one crossing after the tour. -/
def tourEndNext : State := (runTicks tourEnd (crossingTicks 500 irFrontClear)).getD startup

/-- The number of cells marked visited. -/
def visitedCount (m : Maze) : Nat :=
  (Finset.univ.filter (fun p : Fin 5 × Fin 5 => (m p.1 p.2).visited = true)).card

/-- Whether a call is `FA_LCDLine`. -/
def isLine : Cmd → Bool
  | Cmd.LCDLine _ _ _ _ => true
  | _ => false

/-- A visited cell with a wall recorded on every side. -/
def wallCell : node :=
  { north := 1, east := 1, south := 1, west := 1, visited := true, nestingArea := false }

/-- A visited cell with no wall recorded on any side. -/
def openCell : node :=
  { north := 0, east := 0, south := 0, west := 0, visited := true, nestingArea := false }

/-- The result of the program on the tour. -/
def tourResult : Phase × State := (main tour).getD (Phase.Exploring, startup)

/-! ## Theorems -/

/-! ### `readNode` at heading East (C1) -/

/-- C1, the code at heading East with front and rear readings below 100 and
right and left readings above: `readNode` stores the front sample in `north`,
the right sample in `east`, the rear sample in `south` and the left sample in
`west` (north 0, east 1, south 0, west 1), whereas adding the heading offset
would put the front sample in `east`, the right sample in `south`, the rear
sample in `west` and the left sample in `north` (east 0, south 1, west 0,
north 1). -/
theorem readNode_east_ignores_heading :
    (readNode { startup with compass := east } scanFrontRearLow 500).map (fun s => s.maze 2 0) =
      some { north := 0, east := 1, south := 0, west := 1, visited := true,
             nestingArea := false } ∧
    (wallClass (scanFrontRearLow 0).front, wallClass (scanFrontRearLow 1).right,
      wallClass (scanFrontRearLow 2).rear, wallClass (scanFrontRearLow 3).left) = (0, 1, 0, 1) ∧
    (readNode { startup with compass := east } scanFrontRearLow 500).map
        (fun s => (wallAt (s.maze 2 0) ((east + 0) % 4), wallAt (s.maze 2 0) ((east + 1) % 4),
          wallAt (s.maze 2 0) ((east + 2) % 4), wallAt (s.maze 2 0) ((east + 3) % 4))) =
      some (1, 0, 1, 0) := by
  decide

/-! ### `detectWall` (C2) -/

/-- C2: for every state (so every heading) and every set of readings,
`detectWall` decides by strict left, front, right priority with "clear"
meaning a reading below 100.  Left clear: heading `(c + 3) % 4` and a 93
degree left turn; else front clear: heading unchanged and no turn; else right
clear: heading `(c + 1) % 4` and a 93 degree right turn; else heading
`(c + 2) % 4` and a 192 degree turn.  Each branch ends with the 50 ms delay. -/
theorem detectWall_priority (s : State) (ir : IRFrame) :
    (detectWall s ir).compass =
      (if ir.left < 100 then (s.compass + 3) % 4
       else if ir.front < 100 then s.compass
       else if ir.right < 100 then (s.compass + 1) % 4
       else (s.compass + 2) % 4) ∧
    (detectWall s ir).out = s.out ++
      (if ir.left < 100 then [Cmd.Left 93, Cmd.DelayMillis 50]
       else if ir.front < 100 then [Cmd.DelayMillis 50]
       else if ir.right < 100 then [Cmd.Right 93, Cmd.DelayMillis 50]
       else [Cmd.Right 192, Cmd.DelayMillis 50]) := by
  unfold detectWall emit
  split_ifs <;> simp

/-! ### The line-crossing detector (C3, C4) -/

theorem currentPosition_lineState (s : State) :
    (currentPosition s).lineState = s.lineState := by
  unfold currentPosition
  split <;> rfl

theorem detectLine_idle_high (s : State) (p : Int × Int) (h : s.lineState = 0)
    (hp : avgLine p > 150) :
    (detectLine s p.1 p.2).1 = 0 ∧ (detectLine s p.1 p.2).2.lineState = 1 := by
  unfold avgLine at hp
  simp [detectLine, h, hp]

theorem detectLine_idle_stay (s : State) (p : Int × Int) (h : s.lineState = 0)
    (hp : ¬ avgLine p > 150) :
    (detectLine s p.1 p.2).1 = 0 ∧ (detectLine s p.1 p.2).2.lineState = 0 := by
  unfold avgLine at hp
  simp [detectLine, h, hp]

theorem detectLine_online_low (s : State) (p : Int × Int) (h : s.lineState = 1)
    (hp : avgLine p < 10) :
    (detectLine s p.1 p.2).1 = 0 ∧ (detectLine s p.1 p.2).2.lineState = 2 := by
  unfold avgLine at hp
  simp [detectLine, h, hp]

theorem detectLine_online_stay (s : State) (p : Int × Int) (h : s.lineState = 1)
    (hp : ¬ avgLine p < 10) :
    (detectLine s p.1 p.2).1 = 0 ∧ (detectLine s p.1 p.2).2.lineState = 1 := by
  unfold avgLine at hp
  simp [detectLine, h, hp]

theorem detectLine_cleared_high (s : State) (p : Int × Int) (h : s.lineState = 2)
    (hp : avgLine p > 150) :
    (detectLine s p.1 p.2).1 = 1 ∧ (detectLine s p.1 p.2).2.lineState = 0 := by
  unfold avgLine at hp
  simp [detectLine, h, hp, emit, currentPosition_lineState]

theorem detectLine_cleared_stay (s : State) (p : Int × Int) (h : s.lineState = 2)
    (hp : ¬ avgLine p > 150) :
    (detectLine s p.1 p.2).1 = 0 ∧ (detectLine s p.1 p.2).2.lineState = 2 := by
  unfold avgLine at hp
  simp [detectLine, h, hp]

theorem detectLineRun_append (s : State) (l1 l2 : List (Int × Int)) :
    detectLineRun s (l1 ++ l2) =
      ((detectLineRun s l1).1 ++ (detectLineRun (detectLineRun s l1).2 l2).1,
       (detectLineRun (detectLineRun s l1).2 l2).2) := by
  induction l1 generalizing s with
  | nil => simp [detectLineRun]
  | cons p ps ih => simp [detectLineRun, ih]

/-- A run of ticks on which the detector stays in state `a` reports no
crossing. -/
theorem detectLineRun_plateau (a : Int) (P : Int × Int → Prop)
    (hstep : ∀ (s : State) (p : Int × Int), s.lineState = a → P p →
      (detectLine s p.1 p.2).1 = 0 ∧ (detectLine s p.1 p.2).2.lineState = a) :
    ∀ (l : List (Int × Int)) (s : State), s.lineState = a → (∀ p ∈ l, P p) →
      (detectLineRun s l).1.count 1 = 0 ∧ (detectLineRun s l).2.lineState = a := by
  intro l
  induction l with
  | nil => intro s hs _; simp [detectLineRun, hs]
  | cons p ps ih =>
    intro s hs hl
    have h1 := hstep s p hs (hl p (List.mem_cons_self _ _))
    have h2 := ih (detectLine s p.1 p.2).2 h1.2 (fun q hq => hl q (List.mem_cons_of_mem _ hq))
    simp [detectLineRun, h1.1, h2.1, h2.2]

theorem run_idle_low (l : List (Int × Int)) (s : State) (hs : s.lineState = 0)
    (hl : ∀ p ∈ l, avgLine p < 10) :
    (detectLineRun s l).1.count 1 = 0 ∧ (detectLineRun s l).2.lineState = 0 :=
  detectLineRun_plateau 0 (fun p => avgLine p < 10)
    (fun s p h hp => detectLine_idle_stay s p h (by have : avgLine p < 10 := hp; omega)) l s hs hl

theorem run_online_high (l : List (Int × Int)) (s : State) (hs : s.lineState = 1)
    (hl : ∀ p ∈ l, avgLine p > 150) :
    (detectLineRun s l).1.count 1 = 0 ∧ (detectLineRun s l).2.lineState = 1 :=
  detectLineRun_plateau 1 (fun p => avgLine p > 150)
    (fun s p h hp => detectLine_online_stay s p h (by have : avgLine p > 150 := hp; omega))
    l s hs hl

theorem run_cleared_low (l : List (Int × Int)) (s : State) (hs : s.lineState = 2)
    (hl : ∀ p ∈ l, avgLine p < 10) :
    (detectLineRun s l).1.count 1 = 0 ∧ (detectLineRun s l).2.lineState = 2 :=
  detectLineRun_plateau 2 (fun p => avgLine p < 10)
    (fun s p h hp => detectLine_cleared_stay s p h (by have : avgLine p < 10 := hp; omega))
    l s hs hl

theorem run_idle_high (l : List (Int × Int)) (s : State) (hs : s.lineState = 0)
    (hl : ∀ p ∈ l, avgLine p > 150) (hne : l ≠ []) :
    (detectLineRun s l).1.count 1 = 0 ∧ (detectLineRun s l).2.lineState = 1 := by
  cases l with
  | nil => exact absurd rfl hne
  | cons p ps =>
    have h1 := detectLine_idle_high s p hs (hl p (List.mem_cons_self _ _))
    have h2 := run_online_high ps (detectLine s p.1 p.2).2 h1.2
      (fun q hq => hl q (List.mem_cons_of_mem _ hq))
    simp [detectLineRun, h1.1, h2.1, h2.2]

theorem run_online_low (l : List (Int × Int)) (s : State) (hs : s.lineState = 1)
    (hl : ∀ p ∈ l, avgLine p < 10) (hne : l ≠ []) :
    (detectLineRun s l).1.count 1 = 0 ∧ (detectLineRun s l).2.lineState = 2 := by
  cases l with
  | nil => exact absurd rfl hne
  | cons p ps =>
    have h1 := detectLine_online_low s p hs (hl p (List.mem_cons_self _ _))
    have h2 := run_cleared_low ps (detectLine s p.1 p.2).2 h1.2
      (fun q hq => hl q (List.mem_cons_of_mem _ hq))
    simp [detectLineRun, h1.1, h2.1, h2.2]

theorem run_cleared_high (l : List (Int × Int)) (s : State) (hs : s.lineState = 2)
    (hl : ∀ p ∈ l, avgLine p > 150) (hne : l ≠ []) :
    (detectLineRun s l).1.count 1 = 1 := by
  cases l with
  | nil => exact absurd rfl hne
  | cons p ps =>
    have h1 := detectLine_cleared_high s p hs (hl p (List.mem_cons_self _ _))
    have hq : ∀ q ∈ ps, avgLine q > 150 := fun q hq => hl q (List.mem_cons_of_mem _ hq)
    have h2 : (detectLineRun (detectLine s p.1 p.2).2 ps).1.count 1 = 0 := by
      cases ps with
      | nil => simp [detectLineRun]
      | cons q qs => exact (run_idle_high (q :: qs) _ h1.2 hq (List.cons_ne_nil _ _)).1
    simp [detectLineRun, h1.1, h2]

/-- C3: from the Idle state (`lineState = 0`), over a trace made of a run `A`
of low ticks (possibly empty), a non-empty run `B` of high ticks, a non-empty
run `C` of low ticks and a non-empty run `D` of high ticks (low: average below
10, high: average above 150), `detectLine` returns 1 on exactly one tick,
whatever the lengths of the runs. -/
theorem detectLine_one_crossing (s : State) (A B C D : List (Int × Int))
    (hs : s.lineState = 0)
    (hA : ∀ p ∈ A, avgLine p < 10)
    (hB : ∀ p ∈ B, avgLine p > 150) (hB0 : B ≠ [])
    (hC : ∀ p ∈ C, avgLine p < 10) (hC0 : C ≠ [])
    (hD : ∀ p ∈ D, avgLine p > 150) (hD0 : D ≠ []) :
    (detectLineRun s (A ++ B ++ C ++ D)).1.count 1 = 1 := by
  have hA1 := run_idle_low A s hs hA
  have hB1 := run_idle_high B _ hA1.2 hB hB0
  have hC1 := run_online_low C _ hB1.2 hC hC0
  have hD1 := run_cleared_high D _ hC1.2 hD hD0
  rw [detectLineRun_append, detectLineRun_append, detectLineRun_append]
  simp only [List.count_append]
  rw [hA1.1, hB1.1, hC1.1, hD1]

/-- C3 at a concrete trace: one low tick, two high, one low, three high. -/
theorem detectLine_one_crossing_witness :
    (detectLineRun startup
      ([(0, 0)] ++ [(200, 200), (300, 100)] ++ [(5, 5)] ++
        [(200, 200), (200, 200), (200, 200)])).1.count 1 = 1 :=
  detectLine_one_crossing startup [(0, 0)] [(200, 200), (300, 100)] [(5, 5)]
    [(200, 200), (200, 200), (200, 200)] rfl (by decide) (by decide) (by decide) (by decide)
    (by decide) (by decide) (by decide)

/-- C4: for every detector state, heading (`compass < 4`) and position, a call
of `detectLine` either returns 1 with the position advanced by one cell along
the heading (North: x+1, East: y-1, South: x-1, West: y+1, the other
coordinate unchanged), or returns 0 with x and y unchanged. -/
theorem detectLine_position (s : State) (l0 l1 : Int) (hc : s.compass < 4) :
    ((detectLine s l0 l1).1 = 1 ∧
      ((s.compass = 0 ∧ (detectLine s l0 l1).2.x = s.x + 1 ∧ (detectLine s l0 l1).2.y = s.y) ∨
       (s.compass = 1 ∧ (detectLine s l0 l1).2.x = s.x ∧ (detectLine s l0 l1).2.y = s.y - 1) ∨
       (s.compass = 2 ∧ (detectLine s l0 l1).2.x = s.x - 1 ∧ (detectLine s l0 l1).2.y = s.y) ∨
       (s.compass = 3 ∧ (detectLine s l0 l1).2.x = s.x ∧ (detectLine s l0 l1).2.y = s.y + 1))) ∨
    ((detectLine s l0 l1).1 = 0 ∧
      (detectLine s l0 l1).2.x = s.x ∧ (detectLine s l0 l1).2.y = s.y) := by
  obtain ⟨c, m, x, y, ln, na, ls, ss, out⟩ := s
  simp only at hc
  unfold detectLine
  simp only
  split_ifs
  · simp
  · simp
  · simp
  · simp
  · interval_cases c <;> simp [emit, currentPosition]
  · simp
  · simp

/-- C4 at a concrete state: detector Cleared, heading West, position (2,0). -/
theorem detectLine_position_witness :
    clearedWest.compass < 4 ∧
    (((detectLine clearedWest 200 200).1 = 1 ∧
      ((clearedWest.compass = 0 ∧ (detectLine clearedWest 200 200).2.x = clearedWest.x + 1 ∧
          (detectLine clearedWest 200 200).2.y = clearedWest.y) ∨
       (clearedWest.compass = 1 ∧ (detectLine clearedWest 200 200).2.x = clearedWest.x ∧
          (detectLine clearedWest 200 200).2.y = clearedWest.y - 1) ∨
       (clearedWest.compass = 2 ∧ (detectLine clearedWest 200 200).2.x = clearedWest.x - 1 ∧
          (detectLine clearedWest 200 200).2.y = clearedWest.y) ∨
       (clearedWest.compass = 3 ∧ (detectLine clearedWest 200 200).2.x = clearedWest.x ∧
          (detectLine clearedWest 200 200).2.y = clearedWest.y + 1))) ∨
     ((detectLine clearedWest 200 200).1 = 0 ∧
      (detectLine clearedWest 200 200).2.x = clearedWest.x ∧
      (detectLine clearedWest 200 200).2.y = clearedWest.y)) :=
  ⟨by decide, detectLine_position clearedWest 200 200 (by decide)⟩

/-! ### `checkAllNodesVisited` (C5) -/

theorem checkRow_iff (m : Maze) (i : Fin 5) (l : List (Fin 5)) :
    checkRow m i l = true ↔ ∀ j ∈ l, (m i j).visited = true := by
  induction l with
  | nil => simp [checkRow]
  | cons j js ih =>
    simp only [checkRow, List.mem_cons, forall_eq_or_imp]
    cases h : (m i j).visited <;> simp [ih]

theorem checkRows_iff (m : Maze) (l : List (Fin 5)) :
    checkRows m l = true ↔ ∀ i ∈ l, ∀ j ∈ idx5, (m i j).visited = true := by
  induction l with
  | nil => simp [checkRows]
  | cons i is ih =>
    simp only [checkRows, List.mem_cons, forall_eq_or_imp]
    cases h : checkRow m i idx5
    · simp
      have := (checkRow_iff m i idx5).not.mp (by simp [h])
      push_neg at this
      obtain ⟨j, hj, hv⟩ := this
      intro hall
      exact absurd (hall j hj) hv
    · simp [ih]
      exact fun _ => (checkRow_iff m i idx5).mp h

theorem mem_idx5 (i : Fin 5) : i ∈ idx5 := by
  revert i; decide

/-- C5: `checkAllNodesVisited` returns true exactly when all 25 cells
`maze[i][j]` have `visited = true`, and it leaves the state as it was. -/
theorem checkAllNodesVisited_iff (s : State) :
    ((checkAllNodesVisited s).1 = true ↔ ∀ i j : Fin 5, (s.maze i j).visited = true) ∧
    (checkAllNodesVisited s).2 = s := by
  refine ⟨?_, rfl⟩
  simp only [checkAllNodesVisited, checkRows_iff]
  exact ⟨fun h i j => h i (mem_idx5 i) j (mem_idx5 j), fun h i _ j _ => h i j⟩

/-! ### Facts about the single operations -/

theorem cellIndex_some_iff (x y : Int) :
    (∃ c, cellIndex x y = some c) ↔ (0 ≤ x ∧ x ≤ 4 ∧ 0 ≤ y ∧ y ≤ 4) := by
  unfold cellIndex
  constructor
  · rintro ⟨c, hc⟩
    split at hc
    · omega
    · cases hc
  · intro h
    have h2 : 0 ≤ x ∧ x < 5 ∧ 0 ≤ y ∧ y < 5 := by omega
    simp [h2]

theorem cellIndex_none_iff (x y : Int) :
    cellIndex x y = none ↔ ¬ (0 ≤ x ∧ x ≤ 4 ∧ 0 ≤ y ∧ y ≤ 4) := by
  rw [← cellIndex_some_iff]
  cases cellIndex x y <;> simp

theorem readNodeStep_length (c : Nat) (st : Int) (d : List Int) (ir : IRFrame) :
    (readNodeStep c st d ir).2.length = d.length := by
  unfold readNodeStep
  split_ifs <;> simp

theorem readNodeLoop_length (c : Nat) (scan : Nat → IRFrame) (n i : Nat) (st : Int)
    (d : List Int) : (readNodeLoop c scan n i st d).2.length = d.length := by
  induction n generalizing i st d with
  | zero => rfl
  | succ n ih => simp [readNodeLoop, ih, readNodeStep_length]

/-- With the heading in `0..3` and the position at cell `(i, j)`, `readNode`
overwrites the cell with four wall values, `visited = true` and
`nestingArea = false`, advances its cursor and calls `checkNestingArea`. -/
theorem readNode_eq (s : State) (scan : Nat → IRFrame) (light : Int) (i j : Fin 5)
    (hc : s.compass < 4) (hij : cellIndex s.x s.y = some (i, j)) :
    ∃ (n e so w st : Int), readNode s scan light =
      checkNestingArea
        { emit s [Cmd.DelayMillis 350] with
            scanState := st
            maze := setCell s.maze i j
              { north := n, east := e, south := so, west := w
                visited := true, nestingArea := false } }
        light := by
  have hlen := readNodeLoop_length (0 + s.compass) scan 4 0 s.scanState
    [(north : Int), east, south, west]
  simp only [List.length_cons, List.length_nil] at hlen
  obtain ⟨n, hn⟩ : ∃ n, (readNodeLoop (0 + s.compass) scan 4 0 s.scanState
      [(north : Int), east, south, west]).2[0 + s.compass]? = some n :=
    ⟨_, List.getElem?_eq_getElem (by omega)⟩
  obtain ⟨e, he⟩ : ∃ e, (readNodeLoop (0 + s.compass) scan 4 0 s.scanState
      [(north : Int), east, south, west]).2[(0 + s.compass + 1) % 4]? = some e :=
    ⟨_, List.getElem?_eq_getElem (by omega)⟩
  obtain ⟨so, hso⟩ : ∃ so, (readNodeLoop (0 + s.compass) scan 4 0 s.scanState
      [(north : Int), east, south, west]).2[(0 + s.compass + 2) % 4]? = some so :=
    ⟨_, List.getElem?_eq_getElem (by omega)⟩
  obtain ⟨w, hw⟩ : ∃ w, (readNodeLoop (0 + s.compass) scan 4 0 s.scanState
      [(north : Int), east, south, west]).2[(0 + s.compass + 3) % 4]? = some w :=
    ⟨_, List.getElem?_eq_getElem (by omega)⟩
  refine ⟨n, e, so, w, (readNodeLoop (0 + s.compass) scan 4 0 s.scanState
      [(north : Int), east, south, west]).1, ?_⟩
  unfold readNode
  simp only [hij, hn, he, hso, hw]

theorem checkNestingArea_eq (s : State) (light : Int) (i j : Fin 5)
    (hij : cellIndex s.x s.y = some (i, j)) :
    checkNestingArea s light =
      some (if light < 450 ∧ (s.maze i j).nestingArea = false then
              emit { s with nestingAreas := s.nestingAreas + 1
                            maze := setCell s.maze i j { s.maze i j with nestingArea := true } }
                ledFlash
            else s) := by
  unfold checkNestingArea
  simp only [hij]
  split_ifs <;> simp_all

theorem setCell_same (m : Maze) (i j : Fin 5) (n : node) : setCell m i j n i j = n := by
  simp [setCell]

theorem setCell_other (m : Maze) (i j a b : Fin 5) (n : node) (h : ¬ (a = i ∧ b = j)) :
    setCell m i j n a b = m a b := by
  simp [setCell, h]

/-- What `readNode` does to a state whose position is the cell `(i, j)`. -/
theorem readNode_some (s : State) (scan : Nat → IRFrame) (light : Int) (i j : Fin 5)
    (hc : s.compass < 4) (hij : cellIndex s.x s.y = some (i, j)) :
    ∃ s1, readNode s scan light = some s1 ∧
      s1.compass = s.compass ∧ s1.x = s.x ∧ s1.y = s.y ∧ s1.lines = s.lines ∧
      s1.lineState = s.lineState ∧
      (s1.maze i j).visited = true ∧
      ((s1.maze i j).nestingArea = true ↔ light < 450) ∧
      (∀ a b, ¬ (a = i ∧ b = j) → s1.maze a b = s.maze a b) ∧
      s1.nestingAreas = s.nestingAreas + (if light < 450 then 1 else 0) := by
  obtain ⟨n, e, so, w, st, h⟩ := readNode_eq s scan light i j hc hij
  rw [h, checkNestingArea_eq _ light i j (by simpa [emit] using hij)]
  refine ⟨_, rfl, ?_⟩
  by_cases hl : light < 450
  · simp [hl, emit, setCell]
    intro a b hab
    have hab2 : ¬ (a = i ∧ b = j) := fun h => hab h.1 h.2
    simp [hab2]
  · simp [hl, emit, setCell]
    intro a b hab h1 h2
    exact absurd h2 (hab h1)

theorem detectLine_cases (s : State) (l0 l1 : Int) :
    ((detectLine s l0 l1).1 = 0 ∧
      ∃ ls, (detectLine s l0 l1).2 = { s with lineState := ls }) ∨
    ((detectLine s l0 l1).1 = 1 ∧
      (detectLine s l0 l1).2 =
        emit (currentPosition { s with lineState := 0 }) [Cmd.Forwards 100]) := by
  unfold detectLine
  simp only
  split_ifs
  · exact Or.inl ⟨rfl, _, rfl⟩
  · exact Or.inl ⟨rfl, s.lineState, rfl⟩
  · exact Or.inl ⟨rfl, _, rfl⟩
  · exact Or.inl ⟨rfl, s.lineState, rfl⟩
  · exact Or.inr ⟨rfl, rfl⟩
  · exact Or.inl ⟨rfl, s.lineState, rfl⟩
  · exact Or.inl ⟨rfl, s.lineState, rfl⟩

/-- The value returned by `detectLine` depends on the detector state and the
readings only. -/
theorem detectLine_ret_congr (s t : State) (l0 l1 : Int) (h : s.lineState = t.lineState) :
    (detectLine s l0 l1).1 = (detectLine t l0 l1).1 := by
  unfold detectLine
  simp only [h]
  split_ifs <;> rfl

theorem currentPosition_eq (s : State) :
    currentPosition s = { s with x := (currentPosition s).x, y := (currentPosition s).y } := by
  unfold currentPosition
  split <;> rfl

theorem currentPosition_xy_congr (s t : State) (hc : s.compass = t.compass) (hx : s.x = t.x)
    (hy : s.y = t.y) :
    (currentPosition s).x = (currentPosition t).x ∧
    (currentPosition s).y = (currentPosition t).y := by
  unfold currentPosition
  rw [hc]
  split <;> simp [hx, hy]

theorem detectWall_eq (s : State) (ir : IRFrame) :
    detectWall s ir =
      { s with compass := (detectWall s ir).compass, out := (detectWall s ir).out } := by
  unfold detectWall emit
  split_ifs <;> rfl

theorem detectWall_compass_congr (s t : State) (ir : IRFrame) (h : s.compass = t.compass) :
    (detectWall s ir).compass = (detectWall t ir).compass := by
  unfold detectWall emit
  split_ifs <;> simp [h]

theorem detectWall_compass_lt (s : State) (ir : IRFrame) (h : s.compass < 4) :
    (detectWall s ir).compass < 4 := by
  unfold detectWall emit
  split_ifs <;> simp <;> omega

theorem avoidWalls_eq (s : State) (ir : IRFrame) :
    avoidWalls s ir = { s with out := (avoidWalls s ir).out } := by
  unfold avoidWalls emit
  split_ifs <;> rfl

theorem printNode_eq (s : State) (i j : Fin 5) (hij : cellIndex s.x s.y = some (i, j)) :
    ∃ o, printNode s = some { s with out := o } := by
  unfold printNode emit
  simp only [hij]
  exact ⟨_, rfl⟩

theorem endOfPass_eq (s : State) (inp : TickInput) :
    (endOfPass s inp).1 = checkRows s.maze idx5 ∧
    ∃ o, (endOfPass s inp).2 = { s with out := o } := by
  unfold endOfPass checkAllNodesVisited
  rw [avoidWalls_eq]
  simp only
  cases h : checkRows s.maze idx5
  · simp
  · simp [emit, printFinalTable]

/-- What one pass of the loop does, for a heading in `0..3`: without a
crossing only the detector state and the output change; a crossing whose
target cell is outside the grid is an access outside `maze`; a crossing into
the cell `(i, j)` moves the position there, counts the line, rewrites that
cell only and turns according to `detectWall`.  The boolean is the completion
check on the resulting grid. -/
theorem tick_cases (s : State) (inp : TickInput) (hc : s.compass < 4) :
    ((detectLine s inp.line0 inp.line1).1 = 0 ∧
      ∃ ls o, tick s inp = some (checkRows s.maze idx5, { s with lineState := ls, out := o })) ∨
    ((detectLine s inp.line0 inp.line1).1 = 1 ∧
      cellIndex (currentPosition s).x (currentPosition s).y = none ∧ tick s inp = none) ∨
    ((detectLine s inp.line0 inp.line1).1 = 1 ∧
      ∃ i j s1, cellIndex (currentPosition s).x (currentPosition s).y = some (i, j) ∧
        tick s inp = some (checkRows s1.maze idx5, s1) ∧
        s1.x = (currentPosition s).x ∧ s1.y = (currentPosition s).y ∧
        s1.compass = (detectWall s inp.wall).compass ∧
        s1.lines = s.lines + 1 ∧
        (s1.maze i j).visited = true ∧
        ((s1.maze i j).nestingArea = true ↔ inp.light < 450) ∧
        (∀ a b, ¬ (a = i ∧ b = j) → s1.maze a b = s.maze a b) ∧
        s1.nestingAreas = s.nestingAreas + (if inp.light < 450 then 1 else 0)) := by
  have hret : (detectLine (emit s [Cmd.SetMotors 30 25]) inp.line0 inp.line1).1 =
      (detectLine s inp.line0 inp.line1).1 := detectLine_ret_congr _ _ _ _ rfl
  rcases detectLine_cases (emit s [Cmd.SetMotors 30 25]) inp.line0 inp.line1 with
    ⟨h0, ls, hst⟩ | ⟨h1, hst⟩
  · left
    refine ⟨hret ▸ h0, ?_⟩
    obtain ⟨hb, o, ho⟩ := endOfPass_eq { emit s [Cmd.SetMotors 30 25] with lineState := ls } inp
    refine ⟨ls, o, ?_⟩
    unfold tick
    simp only [h0, hst]
    simp only [zero_ne_one, if_false]
    exact congrArg some (Prod.ext hb ho)
  · right
    have hpos := currentPosition_xy_congr
      { emit s [Cmd.SetMotors 30 25] with lineState := 0 } s rfl rfl rfl
    have hmid : ∃ o, (detectLine (emit s [Cmd.SetMotors 30 25]) inp.line0 inp.line1).2 =
        { s with x := (currentPosition s).x, y := (currentPosition s).y, lineState := 0,
                 out := o } := by
      rw [hst, currentPosition_eq, hpos.1, hpos.2]
      exact ⟨_, rfl⟩
    obtain ⟨o, hmid⟩ := hmid
    cases hidx : cellIndex (currentPosition s).x (currentPosition s).y with
    | none =>
      left
      refine ⟨hret ▸ h1, rfl, ?_⟩
      unfold tick
      simp only [h1, if_true, hmid, onCrossing, readNode, hidx]
    | some c =>
      right
      obtain ⟨i, j⟩ := c
      refine ⟨hret ▸ h1, i, j, ?_⟩
      obtain ⟨s1, hr, hc1, hx1, hy1, hl1, -, hv1, hn1, hm1, hna1⟩ :=
        readNode_some
          { s with x := (currentPosition s).x, y := (currentPosition s).y, lineState := 0,
                   out := o, lines := s.lines + 1 } inp.scan inp.light i j hc hidx
      obtain ⟨o2, hp⟩ := printNode_eq s1 i j (by rw [hx1, hy1]; exact hidx)
      obtain ⟨hb, o3, he⟩ := endOfPass_eq (detectWall { s1 with out := o2 } inp.wall) inp
      refine ⟨(endOfPass (detectWall { s1 with out := o2 } inp.wall) inp).2, rfl, ?_, ?_⟩
      · unfold tick
        simp only [h1, if_true, hmid, onCrossing, hr, hp]
        refine congrArg some (Prod.ext ?_ rfl)
        rw [hb, he]
      · rw [he, detectWall_eq]
        simp only
        refine ⟨hx1, hy1, ?_, hl1, hv1, hn1, hm1, hna1⟩
        exact detectWall_compass_congr _ _ _ hc1

/-! ### The all-open arena (C6) -/

theorem startup_maze_visited (i j : Fin 5) : (startup.maze i j).visited = false := by
  revert i j; decide

theorem visitedOnlyLoop_check (s : State) (h : visitedOnlyLoop s) :
    checkRows s.maze idx5 = false := by
  cases hb : checkRows s.maze idx5
  · rfl
  · have h00 := (checkRows_iff s.maze idx5).mp hb 0 (mem_idx5 0) 0 (mem_idx5 0)
    exact absurd (h 0 0 h00) (by decide)

/-- On the left-turn circuit, with left clear, a pass keeps the robot on the
circuit, marks no cell outside it and does not end the loop. -/
theorem leftLoop_tick (s : State) (inp : TickInput) (hl : inp.wall.left < 100)
    (hpos : onLeftLoop s) (hvis : visitedOnlyLoop s) :
    ∃ s1, tick s inp = some (false, s1) ∧ onLeftLoop s1 ∧ visitedOnlyLoop s1 := by
  have hc : s.compass < 4 := by
    rcases hpos with h | h | h | h <;> omega
  rcases tick_cases s inp hc with ⟨-, ls, o, ht⟩ | ⟨-, hnone, -⟩ | ⟨-, i, j, s1, hidx, ht, hx, hy, hcomp, -, -, -, hm, -⟩
  · rw [visitedOnlyLoop_check s hvis] at ht
    exact ⟨_, ht, hpos, hvis⟩
  · exfalso
    rcases hpos with ⟨h1, h2, h3⟩ | ⟨h1, h2, h3⟩ | ⟨h1, h2, h3⟩ | ⟨h1, h2, h3⟩ <;>
      simp [currentPosition, h1, h2, h3] at hnone <;> exact absurd hnone (by decide)
  · have hcw : (detectWall s inp.wall).compass = (s.compass + 3) % 4 := by
      simp [detectWall, hl, emit]
    rw [hcw] at hcomp
    have hkey : onLeftLoop s1 ∧ (i, j) ∈ loopCells := by
      rcases hpos with ⟨h1, h2, h3⟩ | ⟨h1, h2, h3⟩ | ⟨h1, h2, h3⟩ | ⟨h1, h2, h3⟩ <;>
        simp only [currentPosition, h1, h2, h3] at hidx hx hy hcomp <;>
        norm_num at hidx hx hy hcomp
      · have hq : cellIndex 3 0 = some (3, 0) := by decide
        rw [hq] at hidx
        cases hidx
        exact ⟨Or.inr (Or.inl ⟨hx, hy, hcomp⟩), by decide⟩
      · have hq : cellIndex 3 1 = some (3, 1) := by decide
        rw [hq] at hidx
        cases hidx
        exact ⟨Or.inr (Or.inr (Or.inl ⟨hx, hy, hcomp⟩)), by decide⟩
      · have hq : cellIndex 2 1 = some (2, 1) := by decide
        rw [hq] at hidx
        cases hidx
        exact ⟨Or.inr (Or.inr (Or.inr ⟨hx, hy, hcomp⟩)), by decide⟩
      · have hq : cellIndex 2 0 = some (2, 0) := by decide
        rw [hq] at hidx
        cases hidx
        exact ⟨Or.inl ⟨hx, hy, hcomp⟩, by decide⟩
    have hvis1 : visitedOnlyLoop s1 := by
      intro a b hab
      by_cases hcell : a = i ∧ b = j
      · rw [hcell.1, hcell.2]; exact hkey.2
      · rw [hm a b hcell] at hab
        exact hvis a b hab
    rw [visitedOnlyLoop_check s1 hvis1] at ht
    exact ⟨s1, ht, hkey.1, hvis1⟩

theorem visitedOnlyBack_loop (s : State) (h : visitedOnlyBack s) : visitedOnlyLoop s := by
  intro i j hv
  have hb := h i j hv
  simp only [backCells, List.mem_cons, List.mem_singleton, List.mem_nil_iff, or_false] at hb
  rcases hb with hb | hb <;> rw [hb] <;> decide

/-- When the robot reverses at every crossing, a pass keeps it on the two
cells `(2,0)` (heading North) and `(3,0)` (heading South), marks no cell
outside `backCells` and does not end the loop. -/
theorem backLoop_tick (s : State) (inp : TickInput)
    (hl : 100 ≤ inp.wall.left ∧ 100 ≤ inp.wall.front ∧ 100 ≤ inp.wall.right)
    (hpos : onBackLoop s) (hvis : visitedOnlyBack s) :
    ∃ s1, tick s inp = some (false, s1) ∧ onBackLoop s1 ∧ visitedOnlyBack s1 := by
  have hc : s.compass < 4 := by
    rcases hpos with h | h <;> omega
  rcases tick_cases s inp hc with ⟨-, ls, o, ht⟩ | ⟨-, hnone, -⟩ | ⟨-, i, j, s1, hidx, ht, hx, hy, hcomp, -, -, -, hm, -⟩
  · rw [visitedOnlyLoop_check s (visitedOnlyBack_loop s hvis)] at ht
    exact ⟨_, ht, hpos, hvis⟩
  · exfalso
    rcases hpos with ⟨h1, h2, h3⟩ | ⟨h1, h2, h3⟩ <;>
      simp [currentPosition, h1, h2, h3] at hnone <;> exact absurd hnone (by decide)
  · have hcw : (detectWall s inp.wall).compass = (s.compass + 2) % 4 := by
      have h1 : ¬ inp.wall.left < 100 := by omega
      have h2 : ¬ inp.wall.front < 100 := by omega
      have h3 : ¬ inp.wall.right < 100 := by omega
      simp [detectWall, h1, h2, h3, emit]
    rw [hcw] at hcomp
    have hkey : onBackLoop s1 ∧ (i, j) ∈ backCells := by
      rcases hpos with ⟨h1, h2, h3⟩ | ⟨h1, h2, h3⟩ <;>
        simp only [currentPosition, h1, h2, h3] at hidx hx hy hcomp <;>
        norm_num at hidx hx hy hcomp
      · have hq : cellIndex 3 0 = some (3, 0) := by decide
        rw [hq] at hidx
        cases hidx
        exact ⟨Or.inr ⟨hx, hy, hcomp⟩, by decide⟩
      · have hq : cellIndex 2 0 = some (2, 0) := by decide
        rw [hq] at hidx
        cases hidx
        exact ⟨Or.inl ⟨hx, hy, hcomp⟩, by decide⟩
    have hvis1 : visitedOnlyBack s1 := by
      intro a b hab
      by_cases hcell : a = i ∧ b = j
      · rw [hcell.1, hcell.2]; exact hkey.2
      · rw [hm a b hcell] at hab
        exact hvis a b hab
    rw [visitedOnlyLoop_check s1 (visitedOnlyBack_loop s1 hvis1)] at ht
    exact ⟨s1, ht, hkey.1, hvis1⟩

theorem leftLoop_run (inputs : List TickInput) (hl : ∀ inp ∈ inputs, inp.wall.left < 100) :
    ∀ s, onLeftLoop s → visitedOnlyLoop s →
      ∃ s1, mainLoop s inputs = some (Phase.Exploring, s1) ∧ onLeftLoop s1 ∧
        visitedOnlyLoop s1 := by
  induction inputs with
  | nil => intro s hp hv; exact ⟨s, rfl, hp, hv⟩
  | cons inp rest ih =>
    intro s hp hv
    obtain ⟨s1, ht, hp1, hv1⟩ := leftLoop_tick s inp (hl inp (List.mem_cons_self _ _)) hp hv
    obtain ⟨s2, hr, hp2, hv2⟩ := ih (fun q hq => hl q (List.mem_cons_of_mem _ hq)) s1 hp1 hv1
    exact ⟨s2, by simp only [mainLoop, ht, hr], hp2, hv2⟩

theorem backLoop_run (inputs : List TickInput)
    (hl : ∀ inp ∈ inputs, 100 ≤ inp.wall.left ∧ 100 ≤ inp.wall.front ∧ 100 ≤ inp.wall.right) :
    ∀ s, onBackLoop s → visitedOnlyBack s →
      ∃ s1, mainLoop s inputs = some (Phase.Exploring, s1) ∧ onBackLoop s1 ∧
        visitedOnlyBack s1 := by
  induction inputs with
  | nil => intro s hp hv; exact ⟨s, rfl, hp, hv⟩
  | cons inp rest ih =>
    intro s hp hv
    obtain ⟨s1, ht, hp1, hv1⟩ := backLoop_tick s inp (hl inp (List.mem_cons_self _ _)) hp hv
    obtain ⟨s2, hr, hp2, hv2⟩ := ih (fun q hq => hl q (List.mem_cons_of_mem _ hq)) s1 hp1 hv1
    exact ⟨s2, by simp only [mainLoop, ht, hr], hp2, hv2⟩

theorem startup_onLeftLoop : onLeftLoop startup := Or.inl ⟨rfl, rfl, rfl⟩

theorem startup_onBackLoop : onBackLoop startup := Or.inl ⟨rfl, rfl, rfl⟩

theorem startup_visitedOnlyLoop : visitedOnlyLoop startup := by
  intro i j h
  rw [startup_maze_visited] at h
  cases h

theorem startup_visitedOnlyBack : visitedOnlyBack startup := by
  intro i j h
  rw [startup_maze_visited] at h
  cases h

/-- C6, as the code behaves, from the start and whatever the line and other
readings and however many passes are run.  When at every pass of `inputsL`
the left reading of `detectWall` is below 100 (left clear, as in an arena
where every reading reports open): every access stays inside the grid, the
loop is still in its Exploring phase, the robot is at (2,0) heading North, at
(3,0) heading West, at (3,1) heading South or at (2,1) heading East, and no
cell other than (2,0), (3,0), (3,1), (2,1) is marked visited.  When at every
pass of `inputsB` the left, front and right readings are all at least 100:
every access stays inside the grid, the loop is still in its Exploring phase,
the robot is at (2,0) heading North or at (3,0) heading South, and no cell
other than (2,0), (3,0) is marked visited. -/
theorem all_open_never_done (inputsL inputsB : List TickInput)
    (hL : ∀ inp ∈ inputsL, inp.wall.left < 100)
    (hB : ∀ inp ∈ inputsB,
      100 ≤ inp.wall.left ∧ 100 ≤ inp.wall.front ∧ 100 ≤ inp.wall.right) :
    (∃ s, main inputsL = some (Phase.Exploring, s) ∧
      ((s.x = 2 ∧ s.y = 0 ∧ s.compass = 0) ∨ (s.x = 3 ∧ s.y = 0 ∧ s.compass = 3) ∨
       (s.x = 3 ∧ s.y = 1 ∧ s.compass = 2) ∨ (s.x = 2 ∧ s.y = 1 ∧ s.compass = 1)) ∧
      ∀ i j : Fin 5, (s.maze i j).visited = true →
        (i, j) ∈ [((2 : Fin 5), (0 : Fin 5)), (3, 0), (3, 1), (2, 1)]) ∧
    (∃ s, main inputsB = some (Phase.Exploring, s) ∧
      ((s.x = 2 ∧ s.y = 0 ∧ s.compass = 0) ∨ (s.x = 3 ∧ s.y = 0 ∧ s.compass = 2)) ∧
      ∀ i j : Fin 5, (s.maze i j).visited = true →
        (i, j) ∈ [((2 : Fin 5), (0 : Fin 5)), (3, 0)]) := by
  obtain ⟨s, hr, hp, hv⟩ :=
    leftLoop_run inputsL hL startup startup_onLeftLoop startup_visitedOnlyLoop
  obtain ⟨t, hrt, hpt, hvt⟩ :=
    backLoop_run inputsB hB startup startup_onBackLoop startup_visitedOnlyBack
  exact ⟨⟨s, hr, hp, hv⟩, ⟨t, hrt, hpt, hvt⟩⟩

/-- C6 at the first twelve passes of `openEnv` (four crossings, left always
clear) and at the nine passes of `revisitBright` (three crossings, nothing
clear). -/
theorem all_open_never_done_witness :
    (∀ inp ∈ (List.range 12).map openEnv, inp.wall.left < 100) ∧
    (∀ inp ∈ revisitBright,
      100 ≤ inp.wall.left ∧ 100 ≤ inp.wall.front ∧ 100 ≤ inp.wall.right) ∧
    (∃ s, main ((List.range 12).map openEnv) = some (Phase.Exploring, s) ∧
      ((s.x = 2 ∧ s.y = 0 ∧ s.compass = 0) ∨ (s.x = 3 ∧ s.y = 0 ∧ s.compass = 3) ∨
       (s.x = 3 ∧ s.y = 1 ∧ s.compass = 2) ∨ (s.x = 2 ∧ s.y = 1 ∧ s.compass = 1)) ∧
      ∀ i j : Fin 5, (s.maze i j).visited = true →
        (i, j) ∈ [((2 : Fin 5), (0 : Fin 5)), (3, 0), (3, 1), (2, 1)]) ∧
    (∃ s, main revisitBright = some (Phase.Exploring, s) ∧
      ((s.x = 2 ∧ s.y = 0 ∧ s.compass = 0) ∨ (s.x = 3 ∧ s.y = 0 ∧ s.compass = 2)) ∧
      ∀ i j : Fin 5, (s.maze i j).visited = true →
        (i, j) ∈ [((2 : Fin 5), (0 : Fin 5)), (3, 0)]) :=
  ⟨by decide, by decide,
    all_open_never_done ((List.range 12).map openEnv) revisitBright (by decide) (by decide)⟩

/-- C6 fails in the environment `openEnv` (every infrared reading 0, a line
crossed every third pass): after twelve passes four lines have been counted
and the robot is back at (2,0) heading North, still exploring, and no number
of passes brings the loop to its Done phase. -/
theorem all_open_loops_forever :
    (main ((List.range 12).map openEnv)).map
        (fun r => (r.1, r.2.lines, r.2.x, r.2.y, r.2.compass)) =
      some (Phase.Exploring, 4, 2, 0, 0) ∧
    ¬ ∃ n s, main ((List.range n).map openEnv) = some (Phase.Done, s) := by
  refine ⟨by decide, ?_⟩
  rintro ⟨n, s, hs⟩
  have hl : ∀ inp ∈ (List.range n).map openEnv, inp.wall.left < 100 := by
    intro inp hinp
    obtain ⟨t, -, rfl⟩ := List.mem_map.mp hinp
    simp [openEnv, mkInput, irAllClear]
  obtain ⟨s1, hr, -, -⟩ :=
    leftLoop_run _ hl startup startup_onLeftLoop startup_visitedOnlyLoop
  unfold main at hs
  rw [hr] at hs
  cases hs

/-! ### The position and the grid bounds (C7) -/

theorem facingOut_of_none (s : State) (hc : s.compass < 4)
    (hin : 0 ≤ s.x ∧ s.x ≤ 4 ∧ 0 ≤ s.y ∧ s.y ≤ 4)
    (hnone : cellIndex (currentPosition s).x (currentPosition s).y = none) :
    facingOut s = true := by
  rw [cellIndex_none_iff] at hnone
  obtain ⟨c, m, x, y, ln, na, ls, ss, out⟩ := s
  simp only at hc hin
  simp only [facingOut, decide_eq_true_eq]
  interval_cases c <;> simp [currentPosition] at hnone ⊢ <;> omega

/-- From a state inside the grid with a heading in `0..3`, a pass that does
not report a crossing while heading out of the grid makes no access outside
`maze` and ends inside the grid with a heading in `0..3`. -/
theorem tick_inside (s : State) (inp : TickInput) (hc : s.compass < 4)
    (hin : 0 ≤ s.x ∧ s.x ≤ 4 ∧ 0 ≤ s.y ∧ s.y ≤ 4)
    (hg : ¬ ((detectLine s inp.line0 inp.line1).1 = 1 ∧ facingOut s = true)) :
    ∃ b s1, tick s inp = some (b, s1) ∧ s1.compass < 4 ∧
      (0 ≤ s1.x ∧ s1.x ≤ 4 ∧ 0 ≤ s1.y ∧ s1.y ≤ 4) := by
  rcases tick_cases s inp hc with ⟨-, ls, o, ht⟩ | ⟨h1, hnone, -⟩ | ⟨-, i, j, s1, hidx, ht, hx, hy, hcomp, -⟩
  · exact ⟨_, _, ht, hc, hin⟩
  · exact absurd ⟨h1, facingOut_of_none s hc hin hnone⟩ hg
  · refine ⟨_, s1, ht, ?_, ?_⟩
    · rw [hcomp]; exact detectWall_compass_lt s inp.wall hc
    · rw [hx, hy]
      exact (cellIndex_some_iff _ _).mp ⟨_, hidx⟩

theorem mainLoop_inside (inputs : List TickInput) :
    ∀ s, s.compass < 4 → (0 ≤ s.x ∧ s.x ≤ 4 ∧ 0 ≤ s.y ∧ s.y ≤ 4) →
      staysInside s inputs = true →
      ∃ r, mainLoop s inputs = some r ∧ 0 ≤ r.2.x ∧ r.2.x ≤ 4 ∧ 0 ≤ r.2.y ∧ r.2.y ≤ 4 := by
  induction inputs with
  | nil => intro s _ hin _; exact ⟨_, rfl, hin⟩
  | cons inp rest ih =>
    intro s hc hin hg
    simp only [staysInside, Bool.and_eq_true, Bool.not_eq_true', Bool.and_eq_false_iff,
      decide_eq_false_iff_not] at hg
    obtain ⟨hg1, hg2⟩ := hg
    have hg3 : ¬ ((detectLine s inp.line0 inp.line1).1 = 1 ∧ facingOut s = true) := by
      rintro ⟨h1, h2⟩
      rcases hg1 with h | h
      · exact h h1
      · rw [h2] at h; cases h
    obtain ⟨b, s1, ht, hc1, hin1⟩ := tick_inside s inp hc hin hg3
    cases b with
    | true => exact ⟨(Phase.Done, s1), by simp only [mainLoop, ht], hin1⟩
    | false =>
      rw [ht] at hg2
      obtain ⟨r, hr, hrin⟩ := ih s1 hc1 hin1 hg2
      exact ⟨r, by simp only [mainLoop, ht, hr], hrin⟩

/-- C7, as the code behaves: along every run from the start in which no pass
reports a crossing while the heading points out of the grid, no access to
`maze[x][y]` is outside the array (the run is defined) and the position ends
with `0 <= x <= 4` and `0 <= y <= 4`. -/
theorem position_inside_when_guarded (inputs : List TickInput)
    (h : staysInside startup inputs = true) :
    ∃ r, main inputs = some r ∧ 0 ≤ r.2.x ∧ r.2.x ≤ 4 ∧ 0 ≤ r.2.y ∧ r.2.y ≤ 4 :=
  mainLoop_inside inputs startup (by decide) (by decide) h

/-- C7 at the first two crossings of `straightRun`, which take the robot from
(2,0) to (4,0). -/
theorem position_inside_when_guarded_witness :
    staysInside startup (straightRun.take 6) = true ∧
    ∃ r, main (straightRun.take 6) = some r ∧
      0 ≤ r.2.x ∧ r.2.x ≤ 4 ∧ 0 ≤ r.2.y ∧ r.2.y ≤ 4 :=
  ⟨by decide, position_inside_when_guarded (straightRun.take 6) (by decide)⟩

/-- C7 fails on `straightRun` (front clear at every crossing): after eight
passes the robot is at (4,0) heading North; the ninth pass reports a crossing,
`currentPosition` makes `x = 5`, and `readNode` then accesses `maze[5][0]`. -/
theorem position_leaves_grid :
    (main (straightRun.take 8)).map (fun r => (r.1, r.2.x, r.2.y, r.2.compass)) =
      some (Phase.Exploring, 4, 0, 0) ∧
    (main (straightRun.take 8)).map
        (fun r => ((detectLine r.2 200 200).1, (detectLine r.2 200 200).2.x,
          (detectLine r.2 200 200).2.y)) = some (1, 5, 0) ∧
    cellIndex 5 0 = none ∧
    (main straightRun).isNone = true := by
  decide

/-! ### The nesting-area flag and counter (C8, C9, C10) -/

theorem detectLine_maze (s : State) (l0 l1 : Int) : (detectLine s l0 l1).2.maze = s.maze := by
  rcases detectLine_cases s l0 l1 with ⟨-, ls, h⟩ | ⟨-, h⟩
  · rw [h]
  · rw [h, currentPosition_eq]; rfl

/-- C8, the code on the run `revisitBright`: the first crossing enters the
dark cell (3,0), whose flag becomes true and which is counted
(`nestingAreas = 1`); when the robot has come back into (3,0), this time with
a light reading of 500, the flag of (3,0) is false again, no cell is flagged,
and `nestingAreas` is still 1. -/
theorem nestingArea_flag_reset :
    (main (revisitBright.take 3)).map
        (fun r => (r.2.x, r.2.y, (r.2.maze 3 0).nestingArea, r.2.nestingAreas,
          nestingCount r.2.maze)) = some (3, 0, true, 1, 1) ∧
    (main revisitBright).map
        (fun r => (r.2.x, r.2.y, (r.2.maze 3 0).nestingArea, r.2.nestingAreas,
          nestingCount r.2.maze)) = some (3, 0, false, 1, 0) := by
  decide

/-- C9, the code on the run `revisitDark`, where the cell (3,0) is dark and
is entered twice: `nestingAreas` is 2 although exactly one cell, (3,0), has
its flag set. -/
theorem nestingAreas_counts_revisits :
    (main revisitDark).map
        (fun r => (r.1, r.2.nestingAreas, nestingCount r.2.maze, (r.2.maze 3 0).nestingArea)) =
      some (Phase.Exploring, 2, 1, true) := by
  decide

/-- C10, as the code behaves: at a state whose position is the cell `(i, j)`,
two successive calls of `checkNestingArea` with light readings below 450
increase `nestingAreas` by 1 in total when the flag of the cell was false
before the first call and by 0 when it was true; the second call leaves the
whole state (grid and counter included) as the first call left it. -/
theorem checkNestingArea_twice (s : State) (l1 l2 : Int) (i j : Fin 5)
    (hij : cellIndex s.x s.y = some (i, j)) (h1 : l1 < 450) (h2 : l2 < 450) :
    ∃ s1 s2, checkNestingArea s l1 = some s1 ∧ checkNestingArea s1 l2 = some s2 ∧
      s2.nestingAreas =
        s.nestingAreas + (if (s.maze i j).nestingArea = false then 1 else 0) ∧
      s2.maze = s1.maze ∧ s2.nestingAreas = s1.nestingAreas ∧ s2 = s1 := by
  by_cases hf : (s.maze i j).nestingArea = false
  · have e1 := checkNestingArea_eq s l1 i j hij
    simp only [h1, hf, and_self, if_true] at e1
    have e2 := checkNestingArea_eq _ l2 i j
      (show cellIndex (emit { s with nestingAreas := s.nestingAreas + 1
                                     maze := setCell s.maze i j
                                       { s.maze i j with nestingArea := true } }
              ledFlash).x _ = some (i, j) from hij)
    simp only [h2, emit, setCell_same, true_and] at e2
    simp only [Bool.true_eq_false, if_false] at e2
    refine ⟨_, _, e1, e2, ?_, rfl, rfl, rfl⟩
    simp [emit, hf]
  · have e1 := checkNestingArea_eq s l1 i j hij
    simp only [h1, hf, and_false, if_false] at e1
    have e2 := checkNestingArea_eq s l2 i j hij
    simp only [h2, hf, and_false, if_false] at e2
    refine ⟨s, s, e1, e2, ?_, rfl, rfl, rfl⟩
    simp [hf]

/-- C10 at the start state, light readings 100 and 200. -/
theorem checkNestingArea_twice_witness :
    cellIndex startup.x startup.y = some (2, 0) ∧ (100 : Int) < 450 ∧ (200 : Int) < 450 ∧
    ∃ s1 s2, checkNestingArea startup 100 = some s1 ∧ checkNestingArea s1 200 = some s2 ∧
      s2.nestingAreas =
        startup.nestingAreas + (if (startup.maze 2 0).nestingArea = false then 1 else 0) ∧
      s2.maze = s1.maze ∧ s2.nestingAreas = s1.nestingAreas ∧ s2 = s1 :=
  ⟨by decide, by decide, by decide,
    checkNestingArea_twice startup 100 200 2 0 (by decide) (by decide) (by decide)⟩

/-- C10 fails at `flaggedStart`, whose current cell (2,0) is already flagged:
two successive calls with light reading 0 leave `nestingAreas` at 0 instead
of increasing it by 1. -/
theorem checkNestingArea_twice_flagged :
    cellIndex flaggedStart.x flaggedStart.y = some (2, 0) ∧
    flaggedStart.nestingAreas = 0 ∧
    ((checkNestingArea flaggedStart 0).bind (fun s1 => checkNestingArea s1 0)).map
      (fun s2 => s2.nestingAreas) = some 0 := by
  decide

/-! ### The scan loop of `readNode` (C13, C15, C16, C18) -/

theorem readNodeStep_class (c : Nat) (st : Int) (d : List Int) (ir : IRFrame) :
    readNodeStep c st d ir =
      if st = 0 then (1, d.set (c % 4) (wallClass ir.front))
      else if st = 1 then (2, d.set ((c + 1) % 4) (wallClass ir.right))
      else if st = 2 then (3, d.set ((c + 2) % 4) (wallClass ir.rear))
      else if st = 3 then (0, d.set ((c + 3) % 4) (wallClass ir.left))
      else (st, d) := by
  unfold readNodeStep wallClass
  split_ifs <;> rfl

theorem passOf_values :
    passOf 0 0 = 0 ∧ passOf 0 1 = 1 ∧ passOf 0 2 = 2 ∧ passOf 0 3 = 3 ∧
    passOf 1 0 = 3 ∧ passOf 1 1 = 0 ∧ passOf 1 2 = 1 ∧ passOf 1 3 = 2 ∧
    passOf 2 0 = 2 ∧ passOf 2 1 = 3 ∧ passOf 2 2 = 0 ∧ passOf 2 3 = 1 ∧
    passOf 3 0 = 1 ∧ passOf 3 1 = 2 ∧ passOf 3 2 = 3 ∧ passOf 3 3 = 0 := by
  decide

/-- With a heading in `0..3` and the cursor in `0..3`, the four passes bring
the cursor back to its start and leave in the local array, at the index
`(compassDir + k) % 4`, the value for the reading `k` taken in pass
`passOf c0 k`. -/
theorem readNodeLoop_round (c : Nat) (c0 : Int) (scan : Nat → IRFrame) (hc : c < 4)
    (h0 : 0 ≤ c0 ∧ c0 ≤ 3) :
    (readNodeLoop c scan 4 0 c0 [(north : Int), east, south, west]).1 = c0 ∧
    (readNodeLoop c scan 4 0 c0 [(north : Int), east, south, west]).2[c]? =
      some (wallClass (scan (passOf c0 0)).front) ∧
    (readNodeLoop c scan 4 0 c0 [(north : Int), east, south, west]).2[(c + 1) % 4]? =
      some (wallClass (scan (passOf c0 1)).right) ∧
    (readNodeLoop c scan 4 0 c0 [(north : Int), east, south, west]).2[(c + 2) % 4]? =
      some (wallClass (scan (passOf c0 2)).rear) ∧
    (readNodeLoop c scan 4 0 c0 [(north : Int), east, south, west]).2[(c + 3) % 4]? =
      some (wallClass (scan (passOf c0 3)).left) := by
  obtain ⟨h1, h2⟩ := h0
  obtain ⟨p00, p01, p02, p03, p10, p11, p12, p13, p20, p21, p22, p23, p30, p31, p32, p33⟩ :=
    passOf_values
  interval_cases c <;> interval_cases c0 <;>
    simp only [readNodeLoop, readNodeStep_class, p00, p01, p02, p03, p10, p11, p12, p13,
      p20, p21, p22, p23, p30, p31, p32, p33] <;>
    norm_num

theorem scanCursors_round (c : Nat) (c0 : Int) (scan : Nat → IRFrame) (d : List Int)
    (h0 : 0 ≤ c0 ∧ c0 ≤ 3) :
    scanCursors c scan 4 0 c0 d = [c0, (c0 + 1) % 4, (c0 + 2) % 4, (c0 + 3) % 4] := by
  obtain ⟨h1, h2⟩ := h0
  interval_cases c0 <;> simp only [scanCursors, readNodeStep_class] <;> norm_num

/-- What `readNode` does, for a heading in `0..3`, a cursor in `0..3` and a
position at the cell `(i, j)`: the call returns, the cursor is back at its
start, the four wall fields of the cell hold the values for the four
readings, the cell is marked visited, its flag follows the light reading, and
nothing else of the grid, the heading or the position changes. -/
theorem readNode_full (s : State) (scan : Nat → IRFrame) (light : Int) (i j : Fin 5)
    (hc : s.compass < 4) (hcur : 0 ≤ s.scanState ∧ s.scanState ≤ 3)
    (hij : cellIndex s.x s.y = some (i, j)) :
    ∃ s1, readNode s scan light = some s1 ∧
      s1.scanState = s.scanState ∧
      (s1.maze i j).north = wallClass (scan (passOf s.scanState 0)).front ∧
      (s1.maze i j).east = wallClass (scan (passOf s.scanState 1)).right ∧
      (s1.maze i j).south = wallClass (scan (passOf s.scanState 2)).rear ∧
      (s1.maze i j).west = wallClass (scan (passOf s.scanState 3)).left ∧
      (s1.maze i j).visited = true ∧
      ((s1.maze i j).nestingArea = true ↔ light < 450) ∧
      (∀ a b, ¬ (a = i ∧ b = j) → s1.maze a b = s.maze a b) ∧
      s1.compass = s.compass ∧ s1.x = s.x ∧ s1.y = s.y ∧ s1.lines = s.lines ∧
      s1.lineState = s.lineState := by
  obtain ⟨e0, e1, e2, e3, e4⟩ := readNodeLoop_round s.compass s.scanState scan hc hcur
  have hr : readNode s scan light =
      checkNestingArea
        { emit s [Cmd.DelayMillis 350] with
            scanState := s.scanState
            maze := setCell s.maze i j
              { north := wallClass (scan (passOf s.scanState 0)).front
                east := wallClass (scan (passOf s.scanState 1)).right
                south := wallClass (scan (passOf s.scanState 2)).rear
                west := wallClass (scan (passOf s.scanState 3)).left
                visited := true, nestingArea := false } }
        light := by
    unfold readNode
    simp only [Nat.zero_add, hij, e0, e1, e2, e3, e4]
  rw [hr, checkNestingArea_eq _ light i j (by simpa [emit] using hij)]
  refine ⟨_, rfl, ?_⟩
  by_cases hl : light < 450
  · simp [hl, emit, setCell]
    intro a b hab
    have hab2 : ¬ (a = i ∧ b = j) := fun h => hab h.1 h.2
    simp [hab2]
  · simp [hl, emit, setCell]
    intro a b hab h1 h2
    exact absurd h2 (hab h1)

theorem readNode_none_of_outside (s : State) (scan : Nat → IRFrame) (light : Int)
    (h : cellIndex s.x s.y = none) : readNode s scan light = none := by
  unfold readNode
  simp only [h]

theorem onCrossing_scanState (s : State) (inp : TickInput) (s2 : State) (hc : s.compass < 4)
    (hcur : 0 ≤ s.scanState ∧ s.scanState ≤ 3) (h : onCrossing s inp = some s2) :
    s2.scanState = s.scanState := by
  unfold onCrossing at h
  cases hidx : cellIndex s.x s.y with
  | none =>
    rw [readNode_none_of_outside _ _ _ (by simpa using hidx)] at h
    cases h
  | some c =>
    obtain ⟨i, j⟩ := c
    obtain ⟨s1, hr, hs1, -, -, -, -, -, -, -, -, hx1, hy1, -, -⟩ :=
      readNode_full { s with lines := s.lines + 1 } inp.scan inp.light i j hc hcur hidx
    obtain ⟨o, hp⟩ := printNode_eq s1 i j (by rw [hx1, hy1]; exact hidx)
    rw [hr] at h
    simp only [hp] at h
    rw [detectWall_eq] at h
    cases h
    exact hs1

theorem tick_scanState (s : State) (inp : TickInput) (b : Bool) (s1 : State)
    (hc : s.compass < 4) (hcur : 0 ≤ s.scanState ∧ s.scanState ≤ 3)
    (h : tick s inp = some (b, s1)) : s1.scanState = s.scanState := by
  unfold tick at h
  rcases detectLine_cases (emit s [Cmd.SetMotors 30 25]) inp.line0 inp.line1 with
    ⟨h0, ls, hst⟩ | ⟨h1, hst⟩
  · simp only [h0, hst, zero_ne_one, if_false] at h
    obtain ⟨-, o, ho⟩ := endOfPass_eq { emit s [Cmd.SetMotors 30 25] with lineState := ls } inp
    have h2 := congrArg Prod.snd (Option.some.inj h)
    simp only at h2
    rw [← h2, ho]
    rfl
  · simp only [h1, if_true] at h
    cases hoc : onCrossing (detectLine (emit s [Cmd.SetMotors 30 25]) inp.line0 inp.line1).2 inp with
    | none => rw [hoc] at h; cases h
    | some s0 =>
      rw [hoc] at h
      have h2 := congrArg Prod.snd (Option.some.inj h)
      simp only at h2
      obtain ⟨-, o, ho⟩ := endOfPass_eq s0 inp
      have hmid : (detectLine (emit s [Cmd.SetMotors 30 25]) inp.line0 inp.line1).2.compass =
            s.compass ∧
          (detectLine (emit s [Cmd.SetMotors 30 25]) inp.line0 inp.line1).2.scanState =
            s.scanState := by
        rw [hst, currentPosition_eq]
        exact ⟨rfl, rfl⟩
      have h3 := onCrossing_scanState _ inp s0 (by rw [hmid.1]; exact hc)
        (by rw [hmid.2]; exact hcur) hoc
      rw [← h2, ho]
      exact h3.trans hmid.2

theorem tick_compass_lt (s : State) (inp : TickInput) (b : Bool) (s1 : State)
    (hc : s.compass < 4) (h : tick s inp = some (b, s1)) : s1.compass < 4 := by
  rcases tick_cases s inp hc with ⟨-, ls, o, ht⟩ | ⟨-, -, ht⟩ | ⟨-, i, j, s2, -, ht, -, -, hcomp, -⟩
  · rw [ht] at h
    cases h
    exact hc
  · rw [ht] at h
    cases h
  · rw [ht] at h
    cases h
    rw [hcomp]
    exact detectWall_compass_lt s inp.wall hc

theorem mainLoop_scanState (inputs : List TickInput) :
    ∀ (s : State) (r : Phase × State), s.compass < 4 → s.scanState = 0 →
      mainLoop s inputs = some r → r.2.scanState = 0 := by
  induction inputs with
  | nil =>
    intro s r _ hcur h
    simp only [mainLoop] at h
    cases h
    exact hcur
  | cons inp rest ih =>
    intro s r hc hcur h
    simp only [mainLoop] at h
    cases ht : tick s inp with
    | none => rw [ht] at h; cases h
    | some p =>
      obtain ⟨b, s1⟩ := p
      have hs1 := tick_scanState s inp b s1 hc (by omega) ht
      have hc1 := tick_compass_lt s inp b s1 hc ht
      rw [ht] at h
      cases b with
      | true =>
        simp only at h
        cases h
        rw [hs1]; exact hcur
      | false =>
        simp only at h
        exact ih s1 r hc1 (by rw [hs1]; exact hcur) h

/-! ### The visited flags (C11) -/

theorem some_getD {α : Type} (o : Option α) (d : α) (h : o.isSome = true) :
    o = some (o.getD d) := by
  cases o with
  | none => cases h
  | some a => rfl

theorem markRow_visited (i : Fin 5) (l : List (Fin 5)) :
    ∀ (m : Maze) (a b : Fin 5),
      ((markRow i l m) a b).visited =
        if a = i ∧ b ∈ l then false else (m a b).visited := by
  induction l with
  | nil => intro m a b; simp [markRow]
  | cons j js ih =>
    intro m a b
    rw [markRow, ih]
    by_cases ha : a = i
    · by_cases hb : b ∈ js
      · simp [ha, hb]
      · by_cases hbj : b = j
        · simp [ha, hb, hbj, setCell]
        · simp [ha, hb, hbj, setCell]
    · simp [ha, setCell]

theorem markRows_visited (l : List (Fin 5)) :
    ∀ (m : Maze) (a b : Fin 5),
      ((markRows l m) a b).visited = if a ∈ l then false else (m a b).visited := by
  induction l with
  | nil => intro m a b; simp [markRows]
  | cons i is ih =>
    intro m a b
    rw [markRows, ih, markRow_visited]
    by_cases ha : a ∈ is
    · simp [ha]
    · by_cases hai : a = i
      · simp [ha, hai, mem_idx5]
      · simp [ha, hai]

theorem markAllNodesUnvisited_visited (s : State) (a b : Fin 5) :
    ((markAllNodesUnvisited s).maze a b).visited = false := by
  simp [markAllNodesUnvisited, markRows_visited, mem_idx5]

theorem checkRows_false_of_unvisited (m : Maze) (a b : Fin 5)
    (h : (m a b).visited = false) : checkRows m idx5 = false := by
  cases hb : checkRows m idx5
  · rfl
  · have := (checkRows_iff m idx5).mp hb a (mem_idx5 a) b (mem_idx5 b)
    rw [h] at this
    cases this

theorem tick_visited (s : State) (inp : TickInput) (b : Bool) (s1 : State)
    (hc : s.compass < 4) (h : tick s inp = some (b, s1)) (i j : Fin 5)
    (hv : (s.maze i j).visited = true) : (s1.maze i j).visited = true := by
  rcases tick_cases s inp hc with ⟨-, ls, o, ht⟩ | ⟨-, -, ht⟩ |
    ⟨-, a, c, s2, -, ht, -, -, -, -, hvis, -, hm, -⟩
  · rw [ht] at h
    cases h
    exact hv
  · rw [ht] at h
    cases h
  · rw [ht] at h
    cases h
    by_cases hcell : i = a ∧ j = c
    · rw [hcell.1, hcell.2]; exact hvis
    · rw [hm i j hcell]; exact hv

theorem runTicks_visited (inputs : List TickInput) :
    ∀ (s s1 : State), s.compass < 4 → runTicks s inputs = some s1 →
      s1.compass < 4 ∧ ∀ i j, (s.maze i j).visited = true → (s1.maze i j).visited = true := by
  induction inputs with
  | nil =>
    intro s s1 hc h
    simp only [runTicks] at h
    cases h
    exact ⟨hc, fun _ _ hv => hv⟩
  | cons inp rest ih =>
    intro s s1 hc h
    simp only [runTicks] at h
    cases ht : tick s inp with
    | none => rw [ht] at h; cases h
    | some p =>
      obtain ⟨b, s2⟩ := p
      rw [ht] at h
      simp only at h
      obtain ⟨hc1, hmono⟩ := ih s2 s1 (tick_compass_lt s inp b s2 hc ht) h
      exact ⟨hc1, fun i j hv => hmono i j (tick_visited s inp b s2 hc ht i j hv)⟩

/-- C11: `checkAllNodesVisited` is false right after `markAllNodesUnvisited`
(from any state, and so at the start of the loop); along every run of loop
passes from the start, a cell marked visited stays marked; and so once
`checkAllNodesVisited` returns true it returns true in every later state. -/
theorem visited_monotone (pre inputs : List TickInput) (s s1 : State)
    (hs : runTicks startup pre = some s) (h : runTicks s inputs = some s1) :
    (∀ t, (checkAllNodesVisited (markAllNodesUnvisited t)).1 = false) ∧
    (checkAllNodesVisited startup).1 = false ∧
    (∀ i j, (s.maze i j).visited = true → (s1.maze i j).visited = true) ∧
    ((checkAllNodesVisited s).1 = true → (checkAllNodesVisited s1).1 = true) := by
  have hc : s.compass < 4 := (runTicks_visited pre startup s (by decide) hs).1
  have hmono := (runTicks_visited inputs s s1 hc h).2
  refine ⟨?_, ?_, hmono, ?_⟩
  · intro t
    exact checkRows_false_of_unvisited _ 0 0 (markAllNodesUnvisited_visited t 0 0)
  · exact checkRows_false_of_unvisited _ 0 0 (startup_maze_visited 0 0)
  · intro hall
    simp only [checkAllNodesVisited, checkRows_iff] at hall ⊢
    exact fun i hi j hj => hmono i j (hall i hi j hj)

/-- C11 on the tour of the grid: after its 78 passes every cell is visited,
and after one more crossing every cell is still visited. -/
theorem visited_monotone_witness :
    runTicks startup tour = some tourEnd ∧
    runTicks tourEnd (crossingTicks 500 irFrontClear) = some tourEndNext ∧
    (checkAllNodesVisited tourEnd).1 = true ∧
    (checkAllNodesVisited tourEndNext).1 = true :=
  ⟨some_getD _ _ (by decide!), some_getD _ _ (by decide!), by decide!,
    (visited_monotone tour (crossingTicks 500 irFrontClear) tourEnd tourEndNext
      (some_getD _ _ (by decide!)) (some_getD _ _ (by decide!))).2.2.2 (by decide!)⟩

/-! ### The compass arithmetic (C12) -/

/-- C12: the heading after `detectWall` is `rotate` of the heading before, by
3 when it turns left, 1 when it turns right, 2 when it reverses (and is the
heading before when it goes straight); `rotate` always yields a value in
`0..3`; `rotate (rotate c k1) k2 = rotate c ((k1 + k2) % 4)`; and for each
fixed `k`, `rotate · k` is one-to-one and onto on `0..3`. -/
theorem rotate_laws (s : State) (ir : IRFrame) (c k1 k2 : Nat) :
    (detectWall s ir).compass =
      (if ir.left < 100 then rotate s.compass 3
       else if ir.front < 100 then s.compass
       else if ir.right < 100 then rotate s.compass 1
       else rotate s.compass 2) ∧
    rotate c k1 < 4 ∧
    rotate (rotate c k1) k2 = rotate c ((k1 + k2) % 4) ∧
    (∀ a b, a < 4 → b < 4 → rotate a k1 = rotate b k1 → a = b) ∧
    (∀ d, d < 4 → ∃ a, a < 4 ∧ rotate a k1 = d) := by
  refine ⟨?_, ?_, ?_, ?_, ?_⟩
  · unfold detectWall emit rotate
    split_ifs <;> rfl
  · unfold rotate; omega
  · unfold rotate; omega
  · intro a b ha hb h
    unfold rotate at h
    omega
  · intro d hd
    refine ⟨(d + 4 - k1 % 4) % 4, ?_, ?_⟩
    · omega
    · unfold rotate; omega

/-! ### What `readNode` records (C13, C15, C16, C18) -/

theorem wallClass_zero_iff (r : Int) : wallClass r = 0 ↔ r < 100 := by
  unfold wallClass
  split_ifs with h <;> simp [h]

theorem wallClass_one_iff (r : Int) : wallClass r = 1 ↔ 100 ≤ r := by
  unfold wallClass
  split_ifs with h <;> simp <;> omega

/-- C13, as the code behaves: for a heading in `0..3`, a cursor in `0..3` and
a position inside the grid, `readNode` records each of the four samples as 0
(no wall, Open) exactly when its infrared reading is below 100, and as 1
(wall, Blocked) exactly when the reading is 100 or more.  The front sample is
the one in `north`, the right one in `east`, the rear one in `south`, the
left one in `west`; `passOf` names the loop pass in which each is read. -/
theorem readNode_classification (s : State) (scan : Nat → IRFrame) (light : Int)
    (i j : Fin 5) (hc : s.compass < 4) (hcur : 0 ≤ s.scanState ∧ s.scanState ≤ 3)
    (hij : cellIndex s.x s.y = some (i, j)) :
    ∃ s1, readNode s scan light = some s1 ∧
      ((s1.maze i j).north = 0 ↔ (scan (passOf s.scanState 0)).front < 100) ∧
      ((s1.maze i j).north = 1 ↔ 100 ≤ (scan (passOf s.scanState 0)).front) ∧
      ((s1.maze i j).east = 0 ↔ (scan (passOf s.scanState 1)).right < 100) ∧
      ((s1.maze i j).east = 1 ↔ 100 ≤ (scan (passOf s.scanState 1)).right) ∧
      ((s1.maze i j).south = 0 ↔ (scan (passOf s.scanState 2)).rear < 100) ∧
      ((s1.maze i j).south = 1 ↔ 100 ≤ (scan (passOf s.scanState 2)).rear) ∧
      ((s1.maze i j).west = 0 ↔ (scan (passOf s.scanState 3)).left < 100) ∧
      ((s1.maze i j).west = 1 ↔ 100 ≤ (scan (passOf s.scanState 3)).left) := by
  obtain ⟨s1, hr, -, hn, he, hso, hw, -⟩ := readNode_full s scan light i j hc hcur hij
  refine ⟨s1, hr, ?_⟩
  rw [hn, he, hso, hw]
  exact ⟨wallClass_zero_iff _, wallClass_one_iff _, wallClass_zero_iff _, wallClass_one_iff _,
    wallClass_zero_iff _, wallClass_one_iff _, wallClass_zero_iff _, wallClass_one_iff _⟩

/-- C13 at the start state with the readings `scanFrontRearLow`. -/
theorem readNode_classification_witness :
    startup.compass < 4 ∧ (0 ≤ startup.scanState ∧ startup.scanState ≤ 3) ∧
    cellIndex startup.x startup.y = some (2, 0) ∧
    ∃ s1, readNode startup scanFrontRearLow 500 = some s1 ∧
      ((s1.maze 2 0).north = 0 ↔ (scanFrontRearLow (passOf startup.scanState 0)).front < 100) ∧
      ((s1.maze 2 0).north = 1 ↔ 100 ≤ (scanFrontRearLow (passOf startup.scanState 0)).front) ∧
      ((s1.maze 2 0).east = 0 ↔ (scanFrontRearLow (passOf startup.scanState 1)).right < 100) ∧
      ((s1.maze 2 0).east = 1 ↔ 100 ≤ (scanFrontRearLow (passOf startup.scanState 1)).right) ∧
      ((s1.maze 2 0).south = 0 ↔ (scanFrontRearLow (passOf startup.scanState 2)).rear < 100) ∧
      ((s1.maze 2 0).south = 1 ↔ 100 ≤ (scanFrontRearLow (passOf startup.scanState 2)).rear) ∧
      ((s1.maze 2 0).west = 0 ↔ (scanFrontRearLow (passOf startup.scanState 3)).left < 100) ∧
      ((s1.maze 2 0).west = 1 ↔ 100 ≤ (scanFrontRearLow (passOf startup.scanState 3)).left) :=
  ⟨by decide, by decide, by decide,
    readNode_classification startup scanFrontRearLow 500 2 0 (by decide) (by decide)
      (by decide)⟩

/-- C13 fails at the start state with the readings `scanFrontRearLow`: the
front reading 50 is below 100 and is recorded as 0 (no wall), not 1; the
right reading 150 is not below 100 and is recorded as 1 (wall), not 0. -/
theorem readNode_low_reading_is_no_wall :
    (scanFrontRearLow 0).front = 50 ∧ (scanFrontRearLow 1).right = 150 ∧
    (readNode startup scanFrontRearLow 500).map
        (fun s => ((s.maze 2 0).north, (s.maze 2 0).east)) = some (0, 1) := by
  decide

/-- C15: for a position at the cell `(i, j)` (heading in `0..3`, cursor in
`0..3`), after `readNode` the cell has `visited = true`; each of its four
wall fields is the value (0 or 1) for a reading taken during this call, so
nothing of the cell's earlier content remains; its `nestingArea` flag is true
exactly when the light reading is below 450; every other cell is unchanged. -/
theorem readNode_overwrites_cell (s : State) (scan : Nat → IRFrame) (light : Int)
    (i j : Fin 5) (hc : s.compass < 4) (hcur : 0 ≤ s.scanState ∧ s.scanState ≤ 3)
    (hij : cellIndex s.x s.y = some (i, j)) :
    ∃ s1, readNode s scan light = some s1 ∧
      (s1.maze i j).visited = true ∧
      (s1.maze i j).north = wallClass (scan (passOf s.scanState 0)).front ∧
      (s1.maze i j).east = wallClass (scan (passOf s.scanState 1)).right ∧
      (s1.maze i j).south = wallClass (scan (passOf s.scanState 2)).rear ∧
      (s1.maze i j).west = wallClass (scan (passOf s.scanState 3)).left ∧
      ((s1.maze i j).north = 0 ∨ (s1.maze i j).north = 1) ∧
      ((s1.maze i j).east = 0 ∨ (s1.maze i j).east = 1) ∧
      ((s1.maze i j).south = 0 ∨ (s1.maze i j).south = 1) ∧
      ((s1.maze i j).west = 0 ∨ (s1.maze i j).west = 1) ∧
      ((s1.maze i j).nestingArea = true ↔ light < 450) ∧
      (∀ a b, ¬ (a = i ∧ b = j) → s1.maze a b = s.maze a b) := by
  obtain ⟨s1, hr, -, hn, he, hso, hw, hv, hna, hm, -⟩ :=
    readNode_full s scan light i j hc hcur hij
  have h01 : ∀ r : Int, wallClass r = 0 ∨ wallClass r = 1 := by
    intro r
    unfold wallClass
    split_ifs
    · exact Or.inl rfl
    · exact Or.inr rfl
  refine ⟨s1, hr, hv, hn, he, hso, hw, ?_, ?_, ?_, ?_, hna, hm⟩
  · rw [hn]; exact h01 _
  · rw [he]; exact h01 _
  · rw [hso]; exact h01 _
  · rw [hw]; exact h01 _

/-- C15 at a state whose current cell (2,0) is already flagged, with the
readings `scanFrontRearLow` and light 500. -/
theorem readNode_overwrites_cell_witness :
    flaggedStart.compass < 4 ∧ (0 ≤ flaggedStart.scanState ∧ flaggedStart.scanState ≤ 3) ∧
    cellIndex flaggedStart.x flaggedStart.y = some (2, 0) ∧
    ∃ s1, readNode flaggedStart scanFrontRearLow 500 = some s1 ∧
      (s1.maze 2 0).visited = true ∧
      (s1.maze 2 0).north = wallClass (scanFrontRearLow (passOf flaggedStart.scanState 0)).front ∧
      (s1.maze 2 0).east = wallClass (scanFrontRearLow (passOf flaggedStart.scanState 1)).right ∧
      (s1.maze 2 0).south = wallClass (scanFrontRearLow (passOf flaggedStart.scanState 2)).rear ∧
      (s1.maze 2 0).west = wallClass (scanFrontRearLow (passOf flaggedStart.scanState 3)).left ∧
      ((s1.maze 2 0).north = 0 ∨ (s1.maze 2 0).north = 1) ∧
      ((s1.maze 2 0).east = 0 ∨ (s1.maze 2 0).east = 1) ∧
      ((s1.maze 2 0).south = 0 ∨ (s1.maze 2 0).south = 1) ∧
      ((s1.maze 2 0).west = 0 ∨ (s1.maze 2 0).west = 1) ∧
      ((s1.maze 2 0).nestingArea = true ↔ (500 : Int) < 450) ∧
      (∀ a b, ¬ (a = 2 ∧ b = 0) → s1.maze a b = flaggedStart.maze a b) :=
  ⟨by decide, by decide, by decide,
    readNode_overwrites_cell flaggedStart scanFrontRearLow 500 2 0 (by decide) (by decide)
      (by decide)⟩

/-- C16: for every cursor value `c0` in `0..3` (heading in `0..3`, position
inside the grid), the four loop passes of one call of `readNode` start with
the cursor at `c0`, `c0+1`, `c0+2`, `c0+3` modulo 4, each pass recording one
sample, and the call leaves the cursor at `c0`; from the cursor at 0 the
passes are at 0, 1, 2, 3, which read front, right, rear, left in that order;
and in every run from the start the cursor is 0 after every pass of the main
loop, hence at the start and end of every call of `readNode`. -/
theorem readNode_cursor_round (s : State) (scan : Nat → IRFrame) (light : Int)
    (i j : Fin 5) (hc : s.compass < 4) (hcur : 0 ≤ s.scanState ∧ s.scanState ≤ 3)
    (hij : cellIndex s.x s.y = some (i, j)) :
    (∃ s1, readNode s scan light = some s1 ∧ s1.scanState = s.scanState ∧
      (s1.maze i j).north = wallClass (scan (passOf s.scanState 0)).front ∧
      (s1.maze i j).east = wallClass (scan (passOf s.scanState 1)).right ∧
      (s1.maze i j).south = wallClass (scan (passOf s.scanState 2)).rear ∧
      (s1.maze i j).west = wallClass (scan (passOf s.scanState 3)).left) ∧
    scanCursors (0 + s.compass) scan 4 0 s.scanState [(north : Int), east, south, west] =
      [s.scanState, (s.scanState + 1) % 4, (s.scanState + 2) % 4, (s.scanState + 3) % 4] ∧
    (passOf 0 0, passOf 0 1, passOf 0 2, passOf 0 3) = (0, 1, 2, 3) ∧
    (∀ inputs r, main inputs = some r → r.2.scanState = 0) := by
  obtain ⟨s1, hr, hs1, hn, he, hso, hw, -⟩ := readNode_full s scan light i j hc hcur hij
  refine ⟨⟨s1, hr, hs1, hn, he, hso, hw⟩, scanCursors_round _ _ _ _ hcur, by decide, ?_⟩
  intro inputs r h
  exact mainLoop_scanState inputs startup r (by decide) (by decide) h

/-- C16 at the start state (cursor 0). -/
theorem readNode_cursor_round_witness :
    startup.compass < 4 ∧ (0 ≤ startup.scanState ∧ startup.scanState ≤ 3) ∧
    cellIndex startup.x startup.y = some (2, 0) ∧
    scanCursors (0 + startup.compass) scanFrontRearLow 4 0 startup.scanState
        [(north : Int), east, south, west] =
      [startup.scanState, (startup.scanState + 1) % 4, (startup.scanState + 2) % 4,
        (startup.scanState + 3) % 4] :=
  ⟨by decide, by decide, by decide,
    (readNode_cursor_round startup scanFrontRearLow 500 2 0 (by decide) (by decide)
      (by decide)).2.1⟩

/-- C18: for every heading in `0..3` and every set of samples, with the
cursor at front (0), `readNode` stores the value for the front sample (pass
0) in `north`, for the right sample (pass 1) in `east`, for the rear sample
(pass 2) in `south` and for the left sample (pass 3) in `west`; the record
stored is the same whatever the heading. -/
theorem readNode_sensor_relative (s : State) (scan : Nat → IRFrame) (light : Int)
    (i j : Fin 5) (hc : s.compass < 4) (hcur : s.scanState = 0)
    (hij : cellIndex s.x s.y = some (i, j)) :
    ∃ s1, readNode s scan light = some s1 ∧
      (s1.maze i j).north = wallClass (scan 0).front ∧
      (s1.maze i j).east = wallClass (scan 1).right ∧
      (s1.maze i j).south = wallClass (scan 2).rear ∧
      (s1.maze i j).west = wallClass (scan 3).left ∧
      ∀ h, h < 4 → ∃ s2, readNode { s with compass := h } scan light = some s2 ∧
        s2.maze i j = s1.maze i j := by
  obtain ⟨p0, p1, p2, p3, -⟩ := passOf_values
  obtain ⟨s1, hr, -, hn, he, hso, hw, hv, hna, -⟩ :=
    readNode_full s scan light i j hc (by omega) hij
  simp only [hcur, p0, p1, p2, p3] at hn he hso hw
  refine ⟨s1, hr, hn, he, hso, hw, ?_⟩
  intro h hh
  obtain ⟨s2, hr2, -, hn2, he2, hso2, hw2, hv2, hna2, -⟩ :=
    readNode_full { s with compass := h } scan light i j hh
      (show 0 ≤ s.scanState ∧ s.scanState ≤ 3 by omega) hij
  simp only [hcur, p0, p1, p2, p3] at hn2 he2 hso2 hw2
  refine ⟨s2, hr2, ?_⟩
  have hflag : (s2.maze i j).nestingArea = (s1.maze i j).nestingArea :=
    Bool.eq_iff_iff.mpr (hna2.trans hna.symm)
  cases hA : s1.maze i j
  cases hB : s2.maze i j
  rw [hA] at hn he hso hw hv hflag
  rw [hB] at hn2 he2 hso2 hw2 hv2 hflag
  simp only at hn he hso hw hv hn2 he2 hso2 hw2 hv2 hflag
  rw [hn, he, hso, hw, hv, hn2, he2, hso2, hw2, hv2, hflag]

/-- C18 at the start state turned East, with the readings
`scanFrontRearLow`. -/
theorem readNode_sensor_relative_witness :
    (1 : Nat) < 4 ∧ startup.scanState = 0 ∧ cellIndex startup.x startup.y = some (2, 0) ∧
    ∃ s1, readNode { startup with compass := 1 } scanFrontRearLow 500 = some s1 ∧
      (s1.maze 2 0).north = wallClass (scanFrontRearLow 0).front ∧
      (s1.maze 2 0).east = wallClass (scanFrontRearLow 1).right ∧
      (s1.maze 2 0).south = wallClass (scanFrontRearLow 2).rear ∧
      (s1.maze 2 0).west = wallClass (scanFrontRearLow 3).left ∧
      ∀ h, h < 4 →
        ∃ s2, readNode { { startup with compass := 1 } with compass := h } scanFrontRearLow 500 =
            some s2 ∧
          s2.maze 2 0 = s1.maze 2 0 :=
  ⟨by decide, by decide, by decide,
    readNode_sensor_relative { startup with compass := 1 } scanFrontRearLow 500 2 0
      (by decide) (by decide) (by decide)⟩

/-! ### Which operation writes what (C14) -/

/-- C14: at a state with a heading in `0..3` and a position inside the grid,
`detectWall` leaves x, y, the grid and both counters unchanged; `detectLine`
leaves the heading and the grid unchanged, and leaves x and y unchanged
unless it returns 1; `readNode`, `checkNestingArea`, `avoidWalls` and
`checkAllNodesVisited` leave the heading, x and y unchanged. -/
theorem frame_conditions (s : State) (i j : Fin 5) (hc : s.compass < 4)
    (hij : cellIndex s.x s.y = some (i, j)) :
    (∀ ir, (detectWall s ir).x = s.x ∧ (detectWall s ir).y = s.y ∧
      (detectWall s ir).maze = s.maze ∧ (detectWall s ir).lines = s.lines ∧
      (detectWall s ir).nestingAreas = s.nestingAreas) ∧
    (∀ l0 l1, (detectLine s l0 l1).2.compass = s.compass ∧
      (detectLine s l0 l1).2.maze = s.maze ∧
      ((detectLine s l0 l1).1 = 1 ∨
        ((detectLine s l0 l1).2.x = s.x ∧ (detectLine s l0 l1).2.y = s.y))) ∧
    (∀ scan light, ∃ s1, readNode s scan light = some s1 ∧
      s1.compass = s.compass ∧ s1.x = s.x ∧ s1.y = s.y) ∧
    (∀ light, ∃ s1, checkNestingArea s light = some s1 ∧
      s1.compass = s.compass ∧ s1.x = s.x ∧ s1.y = s.y) ∧
    (∀ ir, (avoidWalls s ir).compass = s.compass ∧ (avoidWalls s ir).x = s.x ∧
      (avoidWalls s ir).y = s.y) ∧
    (checkAllNodesVisited s).2 = s := by
  refine ⟨?_, ?_, ?_, ?_, ?_, rfl⟩
  · intro ir
    rw [detectWall_eq]
    exact ⟨rfl, rfl, rfl, rfl, rfl⟩
  · intro l0 l1
    rcases detectLine_cases s l0 l1 with ⟨-, ls, h⟩ | ⟨h1, h⟩
    · rw [h]
      exact ⟨rfl, rfl, Or.inr ⟨rfl, rfl⟩⟩
    · refine ⟨?_, ?_, Or.inl h1⟩
      · rw [h, currentPosition_eq]; rfl
      · rw [h, currentPosition_eq]; rfl
  · intro scan light
    obtain ⟨s1, hr, h1, h2, h3, -⟩ := readNode_some s scan light i j hc hij
    exact ⟨s1, hr, h1, h2, h3⟩
  · intro light
    refine ⟨_, checkNestingArea_eq s light i j hij, ?_⟩
    split_ifs
    · exact ⟨rfl, rfl, rfl⟩
    · exact ⟨rfl, rfl, rfl⟩
  · intro ir
    rw [avoidWalls_eq]
    exact ⟨rfl, rfl, rfl⟩

/-- C14 at the start state. -/
theorem frame_conditions_witness :
    startup.compass < 4 ∧ cellIndex startup.x startup.y = some (2, 0) ∧
    (∀ l0 l1, (detectLine startup l0 l1).2.compass = startup.compass ∧
      (detectLine startup l0 l1).2.maze = startup.maze ∧
      ((detectLine startup l0 l1).1 = 1 ∨
        ((detectLine startup l0 l1).2.x = startup.x ∧
          (detectLine startup l0 l1).2.y = startup.y))) :=
  ⟨by decide, by decide, (frame_conditions startup 2 0 (by decide) (by decide)).2.1⟩

/-! ### `printFinalTable` (C17) -/

/-- C17, as the code behaves: `printFinalTable` makes, in the order of the
two loops, the calls of `finalCell` for the cell `maze[a][b]` at
`(6 * b, 6 * a)`; for each cell it sets the foreground to white and then
calls `FA_LCDLine` for a side exactly when that side is recorded as no wall
(value 0), and not for a side recorded as a wall (value 1). -/
theorem printFinalTable_lines_where_no_wall (s : State) (c : node) (xl yl : Int) :
    (printFinalTable s).out = s.out ++
      idx5.flatMap (fun a => idx5.flatMap (fun b =>
        finalCell (s.maze a b) (6 * ((b : Nat) : Int)) (6 * ((a : Nat) : Int)))) ∧
    (finalCell c xl yl).head? = some Cmd.LCDSetForegroundWhite ∧
    (Cmd.LCDLine xl yl xl (yl + 6) ∈ finalCell c xl yl ↔ c.south = 0) ∧
    (Cmd.LCDLine xl yl (xl + 6) yl ∈ finalCell c xl yl ↔ c.west = 0) ∧
    (Cmd.LCDLine (xl + 6) yl (xl + 6) (yl + 6) ∈ finalCell c xl yl ↔ c.north = 0) ∧
    (Cmd.LCDLine xl (yl + 6) (xl + 6) (yl + 6) ∈ finalCell c xl yl ↔ c.east = 0) ∧
    ((finalCell c xl yl).filter isLine).length =
      (if c.south = 0 then 1 else 0) + (if c.west = 0 then 1 else 0) +
      (if c.north = 0 then 1 else 0) + (if c.east = 0 then 1 else 0) := by
  refine ⟨?_, ?_, ?_, ?_, ?_, ?_, ?_⟩
  · simp only [printFinalTable, emit, finalRows, finalRow, idx5, List.flatMap_cons,
      List.flatMap_nil, List.append_nil, List.append_assoc]
    norm_num [show ((3 : Fin 5) : Nat) = 3 from rfl, show ((4 : Fin 5) : Nat) = 4 from rfl]
  · simp [finalCell]
  · unfold finalCell
    by_cases h1 : c.south = 0 <;> by_cases h2 : c.west = 0 <;> by_cases h3 : c.north = 0 <;>
      by_cases h4 : c.east = 0 <;> simp [h1, h2, h3, h4]
  · unfold finalCell
    by_cases h1 : c.south = 0 <;> by_cases h2 : c.west = 0 <;> by_cases h3 : c.north = 0 <;>
      by_cases h4 : c.east = 0 <;> simp [h1, h2, h3, h4]
  · unfold finalCell
    by_cases h1 : c.south = 0 <;> by_cases h2 : c.west = 0 <;> by_cases h3 : c.north = 0 <;>
      by_cases h4 : c.east = 0 <;> simp [h1, h2, h3, h4]
  · unfold finalCell
    by_cases h1 : c.south = 0 <;> by_cases h2 : c.west = 0 <;> by_cases h3 : c.north = 0 <;>
      by_cases h4 : c.east = 0 <;> simp [h1, h2, h3, h4]
  · unfold finalCell
    by_cases h1 : c.south = 0 <;> by_cases h2 : c.west = 0 <;> by_cases h3 : c.north = 0 <;>
      by_cases h4 : c.east = 0 <;> simp [h1, h2, h3, h4, isLine]

/-- C17 fails on a cell with a wall recorded on every side and on a cell
with none: for the cell with value 1 on every side `printFinalTable` draws no
line, for the cell with value 0 on every side it draws all four; a grid of 25
walled cells gives no `FA_LCDLine` call, a grid of 25 open cells gives 100. -/
theorem printFinalTable_draws_where_no_wall :
    finalCell wallCell 0 0 = [Cmd.LCDSetForegroundWhite] ∧
    finalCell openCell 0 0 =
      [Cmd.LCDSetForegroundWhite, Cmd.LCDLine 0 0 0 6, Cmd.LCDLine 0 0 6 0,
       Cmd.LCDLine 6 0 6 6, Cmd.LCDLine 0 6 6 6] ∧
    ((printFinalTable { initState with maze := fun _ _ => wallCell }).out.filter isLine).length
      = 0 ∧
    ((printFinalTable { initState with maze := fun _ _ => openCell }).out.filter isLine).length
      = 100 := by
  decide

/-! ### Crossings are separated (C19) -/

theorem detectLine_ret_one (s : State) (l0 l1 : Int) (h : (detectLine s l0 l1).1 = 1) :
    s.lineState = 2 ∧ (detectLine s l0 l1).2.lineState = 0 := by
  unfold detectLine at h ⊢
  simp only at h ⊢
  split_ifs at h ⊢ <;> simp_all [emit, currentPosition_lineState]

theorem detectLine_no_low (s : State) (p : Int × Int) (hs : s.lineState ≠ 2)
    (hp : ¬ avgLine p < 10) :
    (detectLine s p.1 p.2).1 = 0 ∧ (detectLine s p.1 p.2).2.lineState ≠ 2 := by
  unfold avgLine at hp
  unfold detectLine
  simp only
  split_ifs <;> simp_all

theorem run_no_low (l : List (Int × Int)) :
    ∀ s : State, s.lineState ≠ 2 → (∀ p ∈ l, ¬ avgLine p < 10) →
      (detectLineRun s l).1.count 1 = 0 ∧ (detectLineRun s l).2.lineState ≠ 2 := by
  induction l with
  | nil => intro s hs _; exact ⟨rfl, hs⟩
  | cons p ps ih =>
    intro s hs hl
    have h1 := detectLine_no_low s p hs (hl p (List.mem_cons_self _ _))
    have h2 := ih (detectLine s p.1 p.2).2 h1.2 (fun q hq => hl q (List.mem_cons_of_mem _ hq))
    simp [detectLineRun, h1.1, h2.1, h2.2]

theorem run_plateau_le_one (l : List (Int × Int)) :
    ∀ s : State, (∀ p ∈ l, ¬ avgLine p < 10) → (detectLineRun s l).1.count 1 ≤ 1 := by
  induction l with
  | nil => intro s _; simp [detectLineRun]
  | cons p ps ih =>
    intro s hl
    have hps : ∀ q ∈ ps, ¬ avgLine q < 10 := fun q hq => hl q (List.mem_cons_of_mem _ hq)
    rcases detectLine_cases s p.1 p.2 with ⟨h0, -⟩ | ⟨h1, -⟩
    · have := ih (detectLine s p.1 p.2).2 hps
      simp [detectLineRun, h0, this]
    · have h2 := run_no_low ps (detectLine s p.1 p.2).2
        (by rw [(detectLine_ret_one s p.1 p.2 h1).2]; decide) hps
      simp [detectLineRun, h1, h2.1]

/-- C19: if `detectLine` reports a crossing on the tick `p` (after the ticks
`L1`) and again on the later tick `q` (after `L1`, `p` and the ticks `L2`),
then some tick of `L2`, strictly between the two, has an averaged reading
below 10; in particular the two ticks are not consecutive.  No two successive
calls both return 1, and a run of ticks none of which reads below 10 (an
uninterrupted high plateau) contains at most one crossing. -/
theorem detectLine_crossings_separated (s : State) (L1 L2 : List (Int × Int))
    (p q : Int × Int)
    (hp : (detectLine (detectLineRun s L1).2 p.1 p.2).1 = 1)
    (hq : (detectLine (detectLineRun s (L1 ++ p :: L2)).2 q.1 q.2).1 = 1) :
    (∃ r ∈ L2, avgLine r < 10) ∧ L2 ≠ [] ∧
    (∀ (t : State) (a b : Int × Int),
      ¬ ((detectLine t a.1 a.2).1 = 1 ∧
         (detectLine (detectLine t a.1 a.2).2 b.1 b.2).1 = 1)) ∧
    (∀ (t : State) (L : List (Int × Int)), (∀ r ∈ L, ¬ avgLine r < 10) →
      (detectLineRun t L).1.count 1 ≤ 1) := by
  have hex : ∃ r ∈ L2, avgLine r < 10 := by
    by_contra hno
    push_neg at hno
    have hno2 : ∀ r ∈ L2, ¬ avgLine r < 10 := fun r hr => not_lt.mpr (hno r hr)
    have h0 := (detectLine_ret_one _ _ _ hp).2
    have hrun := run_no_low L2 (detectLine (detectLineRun s L1).2 p.1 p.2).2
      (by rw [h0]; decide) hno2
    have hst : (detectLineRun s (L1 ++ p :: L2)).2 =
        (detectLineRun (detectLine (detectLineRun s L1).2 p.1 p.2).2 L2).2 := by
      rw [detectLineRun_append]
      simp [detectLineRun]
    rw [hst] at hq
    exact hrun.2 (detectLine_ret_one _ _ _ hq).1
  refine ⟨hex, ?_, ?_, fun t L hL => run_plateau_le_one L t hL⟩
  · rintro rfl
    obtain ⟨r, hr, -⟩ := hex
    cases hr
  · rintro t a b ⟨ha, hb⟩
    have h1 := (detectLine_ret_one _ _ _ ha).2
    have h2 := (detectLine_ret_one _ _ _ hb).1
    rw [h1] at h2
    cases h2

/-- C19 on the trace high, low, high, high, low, high from the start: the
third and the sixth tick report a crossing, and the fifth reads below 10. -/
theorem detectLine_crossings_separated_witness :
    (detectLine (detectLineRun startup [(200, 200), (0, 0)]).2 200 200).1 = 1 ∧
    (detectLine (detectLineRun startup
        ([(200, 200), (0, 0)] ++ (200, 200) :: [(200, 200), (0, 0)])).2 200 200).1 = 1 ∧
    (∃ r ∈ [((200 : Int), (200 : Int)), (0, 0)], avgLine r < 10) :=
  ⟨by decide, by decide,
    (detectLine_crossings_separated startup [(200, 200), (0, 0)] [(200, 200), (0, 0)]
      (200, 200) (200, 200) (by decide) (by decide)).1⟩

/-! ### Visited cells and counted lines (C20) -/

theorem visitedCount_le_succ (m m1 : Maze) (i j : Fin 5)
    (h : ∀ a b, ¬ (a = i ∧ b = j) → m1 a b = m a b) :
    visitedCount m1 ≤ visitedCount m + 1 := by
  unfold visitedCount
  have hsub : Finset.univ.filter (fun p : Fin 5 × Fin 5 => (m1 p.1 p.2).visited = true) ⊆
      insert (i, j) (Finset.univ.filter (fun p : Fin 5 × Fin 5 => (m p.1 p.2).visited = true)) := by
    intro p hp
    rw [Finset.mem_filter] at hp
    rw [Finset.mem_insert, Finset.mem_filter]
    by_cases hcell : p.1 = i ∧ p.2 = j
    · left
      exact Prod.ext hcell.1 hcell.2
    · right
      refine ⟨Finset.mem_univ _, ?_⟩
      rw [← h p.1 p.2 hcell]
      exact hp.2
  exact (Finset.card_le_card hsub).trans (Finset.card_insert_le _ _)

theorem visitedCount_all (m : Maze) (h : ∀ i j : Fin 5, (m i j).visited = true) :
    visitedCount m = 25 := by
  unfold visitedCount
  rw [Finset.filter_true_of_mem (fun p _ => h p.1 p.2)]
  rfl

theorem tick_count (s : State) (inp : TickInput) (b : Bool) (s1 : State)
    (hc : s.compass < 4) (hinv : (visitedCount s.maze : Int) ≤ s.lines)
    (h : tick s inp = some (b, s1)) :
    (visitedCount s1.maze : Int) ≤ s1.lines ∧ (b = true → 25 ≤ s1.lines) := by
  have key : ∀ (s2 : State), (visitedCount s2.maze : Int) ≤ s2.lines →
      checkRows s2.maze idx5 = true → 25 ≤ s2.lines := by
    intro s2 h2 hb
    have hall : ∀ i j : Fin 5, (s2.maze i j).visited = true := fun i j =>
      (checkRows_iff s2.maze idx5).mp hb i (mem_idx5 i) j (mem_idx5 j)
    rw [visitedCount_all s2.maze hall] at h2
    exact_mod_cast h2
  rcases tick_cases s inp hc with ⟨-, ls, o, ht⟩ | ⟨-, -, ht⟩ |
    ⟨-, i, j, s2, -, ht, -, -, -, hl, -, -, hm, -⟩
  · rw [ht] at h
    cases h
    exact ⟨hinv, fun hb => key _ hinv hb⟩
  · rw [ht] at h
    cases h
  · rw [ht] at h
    cases h
    have hle := visitedCount_le_succ s.maze s1.maze i j hm
    have hinv2 : (visitedCount s1.maze : Int) ≤ s1.lines := by
      rw [hl]
      have : (visitedCount s1.maze : Int) ≤ (visitedCount s.maze : Int) + 1 := by
        exact_mod_cast hle
      omega
    exact ⟨hinv2, fun hb => key _ hinv2 hb⟩

theorem mainLoop_count (inputs : List TickInput) :
    ∀ (s : State) (r : Phase × State), s.compass < 4 →
      (visitedCount s.maze : Int) ≤ s.lines → mainLoop s inputs = some r →
      (visitedCount r.2.maze : Int) ≤ r.2.lines ∧ (r.1 = Phase.Done → 25 ≤ r.2.lines) := by
  induction inputs with
  | nil =>
    intro s r _ hinv h
    simp only [mainLoop] at h
    cases h
    exact ⟨hinv, fun hd => by cases hd⟩
  | cons inp rest ih =>
    intro s r hc hinv h
    simp only [mainLoop] at h
    cases ht : tick s inp with
    | none => rw [ht] at h; cases h
    | some p =>
      obtain ⟨b, s1⟩ := p
      obtain ⟨hinv1, hdone⟩ := tick_count s inp b s1 hc hinv ht
      have hc1 := tick_compass_lt s inp b s1 hc ht
      rw [ht] at h
      cases b with
      | true =>
        simp only at h
        cases h
        exact ⟨hinv1, fun _ => hdone rfl⟩
      | false =>
        simp only at h
        exact ih s1 r hc1 hinv1 h

theorem startup_visitedCount : visitedCount startup.maze = 0 := by
  unfold visitedCount
  rw [Finset.card_eq_zero, Finset.filter_eq_empty_iff]
  intro p _
  rw [startup_maze_visited]
  decide

/-- C20: no cell is marked visited at startup, and in every state the program
reaches from the start the number of cells marked visited is at most the
`lines` counter; so when the loop has reached its Done phase at least 25
crossings have been counted. -/
theorem visited_le_lines (inputs : List TickInput) (r : Phase × State)
    (h : main inputs = some r) :
    visitedCount startup.maze = 0 ∧
    (visitedCount r.2.maze : Int) ≤ r.2.lines ∧
    (r.1 = Phase.Done → 25 ≤ r.2.lines) := by
  have h0 := startup_visitedCount
  have hinv : (visitedCount startup.maze : Int) ≤ startup.lines := by
    rw [h0]; decide
  exact ⟨h0, mainLoop_count inputs startup r (by decide) hinv h⟩

/-- C20 on the tour of the grid, which ends in the Done phase with 26 lines
counted. -/
theorem visited_le_lines_witness :
    main tour = some tourResult ∧ tourResult.1 = Phase.Done ∧ tourResult.2.lines = 26 ∧
    (visitedCount tourResult.2.maze : Int) ≤ tourResult.2.lines ∧
    (tourResult.1 = Phase.Done → 25 ≤ tourResult.2.lines) :=
  ⟨some_getD _ _ (by decide!), by decide!, by decide!,
    (visited_le_lines tour tourResult (some_getD _ _ (by decide!))).2⟩

end MazeRobot
